import Mathlib

/-!
# Screensaver simulation core

A shallow embedding of `src/screensaver/main.cpp` (the basic, serial variant) and of
`src/screensaver/parallel.cpp` (the extended variant with rotation and cosmetic mutation).

* `float` values are elements of an arbitrary linearly ordered field `α` (exact arithmetic);
  the theorems that need the square root are stated over `ℝ` with `Real.sqrt`.
* A division whose divisor is zero has no value in exact arithmetic: the functions that divide
  return `Option`, and `none` is the division-by-zero outcome.
* The global `std::vector<Shape> shapes` is a `List`, and the reference `Shape &shape` that
  `updateShape` receives is the index of that element in the list.
* `rand()` is a stream `rand : ℕ → ℕ` read at an explicit position.
-/

namespace Screensaver

variable {α : Type} [LinearOrderedField α]

/-- The constant `NEAR_PLANE = 0.1f`. -/
def NEAR_PLANE : α := 0.1

/-- The constant `FAR_PLANE = 10.0f`. -/
def FAR_PLANE : α := 10.0

/-- The `struct Shape` of `main.cpp`. -/
structure Shape (α : Type) where
  sides : Int
  radius : α
  x : α
  y : α
  z : α
  vx : α
  vy : α
  vz : α
  r : α
  g : α
  b : α
deriving DecidableEq, Repr

/-- Lines 51-53 of `updateShape`: `shape.x += shape.vx * dt` and the same for `y` and `z`. -/
def integrate (shape : Shape α) (dt : α) : Shape α :=
  { shape with
    x := shape.x + shape.vx * dt
    y := shape.y + shape.vy * dt
    z := shape.z + shape.vz * dt }

/-- Lines 56-74 of `updateShape`: the projected radius `shape.radius / shape.z` and the four
lateral wall tests, in source order. The division has no value when `shape.z = 0`. -/
def clampLateral (shape : Shape α) : Option (Shape α) :=
  if shape.z = 0 then none
  else
    let projectedRadiusX := shape.radius / shape.z
    let projectedRadiusY := shape.radius / shape.z
    let shape :=
      if shape.x - projectedRadiusX < -1 then
        { shape with x := -1 + projectedRadiusX, vx := shape.vx * -1 }
      else shape
    let shape :=
      if shape.x + projectedRadiusX > 1 then
        { shape with x := 1 - projectedRadiusX, vx := shape.vx * -1 }
      else shape
    let shape :=
      if shape.y - projectedRadiusY < -1 then
        { shape with y := -1 + projectedRadiusY, vy := shape.vy * -1 }
      else shape
    let shape :=
      if shape.y + projectedRadiusY > 1 then
        { shape with y := 1 - projectedRadiusY, vy := shape.vy * -1 }
      else shape
    some shape

/-- Lines 75-82 of `updateShape`: the near-plane test, then the far-plane test. -/
def clampDepth (shape : Shape α) : Shape α :=
  let shape :=
    if shape.z - shape.radius < NEAR_PLANE then
      { shape with z := NEAR_PLANE + shape.radius, vz := shape.vz * -1 }
    else shape
  let shape :=
    if shape.z + shape.radius > FAR_PLANE then
      { shape with z := FAR_PLANE - shape.radius, vz := shape.vz * -1 }
    else shape
  shape

/-- Lines 51-82 of `updateShape`: integration followed by the six wall tests, that is the part
of `updateShape` that runs before the collision scan. -/
def boundaryStep (shape : Shape α) (dt : α) : Option (Shape α) :=
  (clampLateral (integrate shape dt)).map clampDepth

/-- The body of the loop of lines 88-108 on the two shapes it reads and writes: `shape` is the
updated shape, `other` the compared one. Distance test, separation of both centres along the
centre line and swap of the velocity vectors; without overlap both shapes are left as they
are. The six divisions by `dist` have no value when `dist = 0`. -/
def resolvePair (sqrt : α → α) (shape other : Shape α) : Option (Shape α × Shape α) :=
  let dx := shape.x - other.x
  let dy := shape.y - other.y
  let dz := shape.z - other.z
  let dist := sqrt (dx * dx + dy * dy + dz * dz)
  if dist < shape.radius + other.radius then
    let overlap := 0.5 * (dist - shape.radius - other.radius)
    if dist = 0 then none
    else
      some
        ({ shape with
            x := shape.x - overlap * dx / dist
            y := shape.y - overlap * dy / dist
            z := shape.z - overlap * dz / dist
            vx := other.vx
            vy := other.vy
            vz := other.vz },
         { other with
            x := other.x + overlap * dx / dist
            y := other.y + overlap * dy / dist
            z := other.z + overlap * dz / dist
            vx := shape.vx
            vy := shape.vy
            vz := shape.vz })
  else some (shape, other)

/-- One iteration of the loop of lines 85-109 on the store: `shape` is the element `i` and
`other` the element `j` (with `j ≠ i`), both read from and written back to the store. -/
def collide (sqrt : α → α) (i j : ℕ) (shapes : List (Shape α)) : Option (List (Shape α)) :=
  match shapes[i]?, shapes[j]? with
  | some shape, some other =>
    match resolvePair sqrt shape other with
    | none => none
    | some (shape', other') => some ((shapes.set i shape').set j other')
  | _, _ => some shapes

/-- The loop `for (auto &other : shapes)` of lines 85-109 over the indices `js` still to visit;
`if (&shape == &other) continue` skips the index `i` of the updated shape. -/
def scanFrom (sqrt : α → α) (i : ℕ) : List ℕ → List (Shape α) → Option (List (Shape α))
  | [], shapes => some shapes
  | j :: js, shapes =>
    if j = i then scanFrom sqrt i js shapes
    else
      match collide sqrt i j shapes with
      | none => none
      | some shapes' => scanFrom sqrt i js shapes'

/-- The collision scan of `updateShape` (lines 85-109) for the shape at index `i`: every
element of the store is visited once, in store order. -/
def collisionScan (sqrt : α → α) (i : ℕ) (shapes : List (Shape α)) : Option (List (Shape α)) :=
  scanFrom sqrt i (List.range shapes.length) shapes

/-- The function `updateShape(Shape &shape, float dt)` of `main.cpp`, with `shape` the element
`i` of the store. An index outside the store references no shape and changes nothing. -/
def updateShape (sqrt : α → α) (shapes : List (Shape α)) (i : ℕ) (dt : α) :
    Option (List (Shape α)) :=
  match shapes[i]? with
  | none => some shapes
  | some shape =>
    match boundaryStep shape dt with
    | none => none
    | some shape' => collisionScan sqrt i (shapes.set i shape')

/-- The loop `for (auto &shape : shapes) { updateShape(shape, dt); drawShape(shape); }` of
`main` (lines 214-217) over the indices `is` still to visit; `drawShape` reads the store only. -/
def tickFrom (sqrt : α → α) (dt : α) : List ℕ → List (Shape α) → Option (List (Shape α))
  | [], shapes => some shapes
  | i :: is, shapes =>
    match updateShape sqrt shapes i dt with
    | none => none
    | some shapes' => tickFrom sqrt dt is shapes'

/-- One serial tick: `updateShape` applied to each shape in store order. -/
def tick (sqrt : α → α) (dt : α) (shapes : List (Shape α)) : Option (List (Shape α)) :=
  tickFrom sqrt dt (List.range shapes.length) shapes

/-- Depth invariant of a shape: `NEAR_PLANE ≤ z - radius` and `z + radius ≤ FAR_PLANE`. -/
def DepthInRange (shape : Shape α) : Prop :=
  NEAR_PLANE ≤ shape.z - shape.radius ∧ shape.z + shape.radius ≤ FAR_PLANE

/-- Centre distance of two shapes, as computed in the collision scan. -/
def centerDist (sqrt : α → α) (a b : Shape α) : α :=
  sqrt ((a.x - b.x) * (a.x - b.x) + (a.y - b.y) * (a.y - b.y) + (a.z - b.z) * (a.z - b.z))

/-- The velocity vector `(vx, vy, vz)` of a shape. -/
def velocity (shape : Shape α) : α × α × α :=
  (shape.vx, shape.vy, shape.vz)

/-- The low-wall test followed by the high-wall test of one lateral axis, on the coordinate
alone, for a projected radius `p`: what lines 59-66 (and 67-74) do to `x` (and to `y`). -/
def axisClamp (p c : α) : α :=
  let c := if c - p < -1 then -1 + p else c
  if c + p > 1 then 1 - p else c

/-- One iteration of the loop of `generateShapes` (lines 115-127 of `main.cpp`): the shape built
from the eleven `rand()` results at the stream positions `k`, ..., `k + 10`, one per statement
in source order. `RAND_MAX` is the constant of the C library. -/
def randomShape (RAND_MAX : ℕ) (rand : ℕ → ℕ) (k : ℕ) : Shape α :=
  { sides := ((rand k % 3 + 3 : ℕ) : Int)
    radius := 0.05 + (rand (k + 1) : α) / ((RAND_MAX : α) / 0.1)
    x := -1 + (rand (k + 2) : α) / ((RAND_MAX : α) / 2)
    y := -1 + (rand (k + 3) : α) / ((RAND_MAX : α) / 2)
    z := NEAR_PLANE + (rand (k + 4) : α) / ((RAND_MAX : α) / (FAR_PLANE - NEAR_PLANE))
    vx := 0.5 * ((rand (k + 5) : α) / (RAND_MAX : α) - 0.5)
    vy := 0.5 * ((rand (k + 6) : α) / (RAND_MAX : α) - 0.5)
    vz := 0.5 * ((rand (k + 7) : α) / (RAND_MAX : α) - 0.5)
    r := (rand (k + 8) : α) / (RAND_MAX : α)
    g := (rand (k + 9) : α) / (RAND_MAX : α)
    b := (rand (k + 10) : α) / (RAND_MAX : α) }

/-- The loop `for (int i = 0; i < N; ++i)` of `generateShapes` with `n` iterations left, the
next `rand()` result at stream position `k`, and `shapes.push_back(shape)` as an append. -/
def generateLoop (RAND_MAX : ℕ) (rand : ℕ → ℕ) : ℕ → ℕ → List (Shape α) → List (Shape α)
  | 0, _, shapes => shapes
  | n + 1, k, shapes =>
    generateLoop RAND_MAX rand n (k + 11) (shapes ++ [randomShape RAND_MAX rand k])

/-- The function `generateShapes(int N)` of `main.cpp` on the store `shapes`: `shapes.clear()`,
then the loop; a non-positive `N` runs no iteration. -/
def generateShapes (RAND_MAX : ℕ) (rand : ℕ → ℕ) (N : Int) (_shapes : List (Shape α)) :
    List (Shape α) :=
  let shapes : List (Shape α) := []
  generateLoop RAND_MAX rand N.toNat 0 shapes

/-- The C library function `fmod`: `x - n * y` with `n` the quotient `x / y` truncated toward
zero, so that the result has the sign of `x`. -/
def fmod [FloorRing α] (x y : α) : α :=
  x - y * ((if 0 ≤ x / y then ⌊x / y⌋ else ⌈x / y⌉ : ℤ) : α)

namespace Parallel

/-- The `struct Shape` of `parallel.cpp`. -/
structure Shape (α : Type) where
  sides : Int
  radius : α
  x : α
  y : α
  z : α
  vx : α
  vy : α
  vz : α
  rX : α
  rY : α
  rZ : α
  rotationSpeed : α
  r : α
  g : α
  b : α
deriving DecidableEq, Repr

/-- The member function `Shape::changeColor` (lines 45-49): three `rand()` results, read at the
stream positions `k`, `k + 1`, `k + 2`; the second component is the next stream position. -/
def Shape.changeColor (RAND_MAX : ℕ) (rand : ℕ → ℕ) (shape : Shape α) (k : ℕ) : Shape α × ℕ :=
  let shape := { shape with r := (rand k : α) / (RAND_MAX : α) }
  let shape := { shape with g := (rand (k + 1) : α) / (RAND_MAX : α) }
  let shape := { shape with b := (rand (k + 2) : α) / (RAND_MAX : α) }
  (shape, k + 3)

/-- Lines 96-103 of `updateShape`: `shape.x += shape.vx * dt`, the same for `y` and `z`, and
`shape.rX += shape.rotationSpeed * dt`, the same for `rY` and `rZ`. -/
def advance (shape : Shape α) (dt : α) : Shape α :=
  { shape with
    x := shape.x + shape.vx * dt
    y := shape.y + shape.vy * dt
    z := shape.z + shape.vz * dt
    rX := shape.rX + shape.rotationSpeed * dt
    rY := shape.rY + shape.rotationSpeed * dt
    rZ := shape.rZ + shape.rotationSpeed * dt }

/-- Lines 106-114 of `updateShape`: one degree is added to each rotation angle whose `fmod` by
`90` is below `1`. -/
def nudge [FloorRing α] (shape : Shape α) : Shape α :=
  { shape with
    rX := if fmod shape.rX 90 < 1 then shape.rX + 1 else shape.rX
    rY := if fmod shape.rY 90 < 1 then shape.rY + 1 else shape.rY
    rZ := if fmod shape.rZ 90 < 1 then shape.rZ + 1 else shape.rZ }

/-- Lines 96-114 of `updateShape`: position and rotation advance, then the nudge of the
rotation angles. -/
def integrate [FloorRing α] (shape : Shape α) (dt : α) : Shape α :=
  nudge (advance shape dt)

/-- Lines 117-135 of `updateShape`: the projected radius and the four lateral wall tests. The
division has no value when `shape.z = 0`. -/
def clampLateral (shape : Shape α) : Option (Shape α) :=
  if shape.z = 0 then none
  else
    let projectedRadiusX := shape.radius / shape.z
    let projectedRadiusY := shape.radius / shape.z
    let shape :=
      if shape.x - projectedRadiusX < -1 then
        { shape with x := -1 + projectedRadiusX, vx := shape.vx * -1 }
      else shape
    let shape :=
      if shape.x + projectedRadiusX > 1 then
        { shape with x := 1 - projectedRadiusX, vx := shape.vx * -1 }
      else shape
    let shape :=
      if shape.y - projectedRadiusY < -1 then
        { shape with y := -1 + projectedRadiusY, vy := shape.vy * -1 }
      else shape
    let shape :=
      if shape.y + projectedRadiusY > 1 then
        { shape with y := 1 - projectedRadiusY, vy := shape.vy * -1 }
      else shape
    some shape

/-- Lines 136-143 of `updateShape`: the near-plane test, then the far-plane test. -/
def clampDepth (shape : Shape α) : Shape α :=
  let shape :=
    if shape.z - shape.radius < NEAR_PLANE then
      { shape with z := NEAR_PLANE + shape.radius, vz := shape.vz * -1 }
    else shape
  let shape :=
    if shape.z + shape.radius > FAR_PLANE then
      { shape with z := FAR_PLANE - shape.radius, vz := shape.vz * -1 }
    else shape
  shape

/-- Lines 96-143 of `updateShape`: the part that runs before the collision scan. -/
def boundaryStep [FloorRing α] (shape : Shape α) (dt : α) : Option (Shape α) :=
  (clampLateral (integrate shape dt)).map clampDepth

/-- The body of the loop of lines 149-178 on the two shapes it reads and writes, with the next
`rand()` result at stream position `k`: distance test, separation, velocity swap, then the
draw `p` and the two cosmetic tests on `shape`. The third component of the result is the next
stream position. The six divisions by `dist` have no value when `dist = 0`. -/
def resolvePair (RAND_MAX : ℕ) (rand : ℕ → ℕ) (sqrt : α → α) (shape other : Shape α) (k : ℕ) :
    Option (Shape α × Shape α × ℕ) :=
  let dx := shape.x - other.x
  let dy := shape.y - other.y
  let dz := shape.z - other.z
  let dist := sqrt (dx * dx + dy * dy + dz * dz)
  if dist < shape.radius + other.radius then
    let overlap := 0.5 * (dist - shape.radius - other.radius)
    if dist = 0 then none
    else
      let shape' : Shape α :=
        { shape with
          x := shape.x - overlap * dx / dist
          y := shape.y - overlap * dy / dist
          z := shape.z - overlap * dz / dist
          vx := other.vx
          vy := other.vy
          vz := other.vz }
      let other' : Shape α :=
        { other with
          x := other.x + overlap * dx / dist
          y := other.y + overlap * dy / dist
          z := other.z + overlap * dz / dist
          vx := shape.vx
          vy := shape.vy
          vz := shape.vz }
      let p := (rand k : α) / (RAND_MAX : α)
      let k := k + 1
      let step : Shape α × ℕ :=
        if p < 0.1 then
          ({ shape' with rotationSpeed := 70 * ((rand k : α) / (RAND_MAX : α)) }, k + 1)
        else (shape', k)
      let step : Shape α × ℕ :=
        if p < 0.05 then step.1.changeColor RAND_MAX rand step.2 else step
      some (step.1, other', step.2)
  else some (shape, other, k)

/-- One iteration of the loop of lines 146-179 on the store: `shape` is the element `i` and
`other` the element `j` (with `j ≠ i`). -/
def collide (RAND_MAX : ℕ) (rand : ℕ → ℕ) (sqrt : α → α) (i j : ℕ) (shapes : List (Shape α))
    (k : ℕ) : Option (List (Shape α) × ℕ) :=
  match shapes[i]?, shapes[j]? with
  | some shape, some other =>
    match resolvePair RAND_MAX rand sqrt shape other k with
    | none => none
    | some (shape', other', k') => some ((shapes.set i shape').set j other', k')
  | _, _ => some (shapes, k)

/-- The loop `for (auto &other : shapes)` of lines 146-179 over the indices `js` still to
visit; the index `i` of the updated shape is skipped. -/
def scanFrom (RAND_MAX : ℕ) (rand : ℕ → ℕ) (sqrt : α → α) (i : ℕ) :
    List ℕ → List (Shape α) → ℕ → Option (List (Shape α) × ℕ)
  | [], shapes, k => some (shapes, k)
  | j :: js, shapes, k =>
    if j = i then scanFrom RAND_MAX rand sqrt i js shapes k
    else
      match collide RAND_MAX rand sqrt i j shapes k with
      | none => none
      | some (shapes', k') => scanFrom RAND_MAX rand sqrt i js shapes' k'

/-- The collision scan of `updateShape` (lines 146-179) for the shape at index `i`. -/
def collisionScan (RAND_MAX : ℕ) (rand : ℕ → ℕ) (sqrt : α → α) (i : ℕ)
    (shapes : List (Shape α)) (k : ℕ) : Option (List (Shape α) × ℕ) :=
  scanFrom RAND_MAX rand sqrt i (List.range shapes.length) shapes k

/-- The function `updateShape(Shape &shape, float dt)` of `parallel.cpp`, with `shape` the
element `i` of the store and the next `rand()` result at stream position `k`. An index outside
the store references no shape and changes nothing. -/
def updateShape [FloorRing α] (RAND_MAX : ℕ) (rand : ℕ → ℕ) (sqrt : α → α)
    (shapes : List (Shape α)) (i : ℕ) (dt : α) (k : ℕ) : Option (List (Shape α) × ℕ) :=
  match shapes[i]? with
  | none => some (shapes, k)
  | some shape =>
    match boundaryStep shape dt with
    | none => none
    | some shape' => collisionScan RAND_MAX rand sqrt i (shapes.set i shape') k

/-- One iteration of the loop of `generateShapes` (lines 186-199 of `parallel.cpp`): the default
constructor zeroes the rotation fields, then eleven `rand()` results are read. -/
def randomShape (RAND_MAX : ℕ) (rand : ℕ → ℕ) (k : ℕ) : Shape α :=
  { sides := ((rand k % 3 + 3 : ℕ) : Int)
    radius := 0.05 + (rand (k + 1) : α) / ((RAND_MAX : α) / 0.1)
    x := -1 + (rand (k + 2) : α) / ((RAND_MAX : α) / 2)
    y := -1 + (rand (k + 3) : α) / ((RAND_MAX : α) / 2)
    z := NEAR_PLANE + (rand (k + 4) : α) / ((RAND_MAX : α) / (FAR_PLANE - NEAR_PLANE))
    vx := 0.5 * ((rand (k + 5) : α) / (RAND_MAX : α) - 0.5)
    vy := 0.5 * ((rand (k + 6) : α) / (RAND_MAX : α) - 0.5)
    vz := 0.5 * ((rand (k + 7) : α) / (RAND_MAX : α) - 0.5)
    rX := 0
    rY := 0
    rZ := 0
    rotationSpeed := 0
    r := (rand (k + 8) : α) / (RAND_MAX : α)
    g := (rand (k + 9) : α) / (RAND_MAX : α)
    b := (rand (k + 10) : α) / (RAND_MAX : α) }

/-- The loop of `generateShapes` in `parallel.cpp`. -/
def generateLoop (RAND_MAX : ℕ) (rand : ℕ → ℕ) : ℕ → ℕ → List (Shape α) → List (Shape α)
  | 0, _, shapes => shapes
  | n + 1, k, shapes =>
    generateLoop RAND_MAX rand n (k + 11) (shapes ++ [randomShape RAND_MAX rand k])

/-- The function `generateShapes(int N)` of `parallel.cpp`. -/
def generateShapes (RAND_MAX : ℕ) (rand : ℕ → ℕ) (N : Int) (_shapes : List (Shape α)) :
    List (Shape α) :=
  let shapes : List (Shape α) := []
  generateLoop RAND_MAX rand N.toNat 0 shapes

/-- Centre distance of two shapes, as computed in the collision scan of `parallel.cpp`. -/
def centerDist (sqrt : α → α) (a b : Shape α) : α :=
  sqrt ((a.x - b.x) * (a.x - b.x) + (a.y - b.y) * (a.y - b.y) + (a.z - b.z) * (a.z - b.z))

/-- The velocity vector `(vx, vy, vz)` of a shape of `parallel.cpp`. -/
def velocity (shape : Shape α) : α × α × α :=
  (shape.vx, shape.vy, shape.vz)

/-- The fields that `parallel.cpp` shares with the `Shape` of `main.cpp`. -/
def Shape.toBasic (shape : Shape α) : Screensaver.Shape α :=
  { sides := shape.sides, radius := shape.radius, x := shape.x, y := shape.y, z := shape.z,
    vx := shape.vx, vy := shape.vy, vz := shape.vz, r := shape.r, g := shape.g, b := shape.b }

end Parallel

/-- A shape of `parallel.cpp` and a shape of `main.cpp` agree on `sides`, `radius`, position
and velocity. -/
def Agrees (p : Parallel.Shape α) (s : Shape α) : Prop :=
  p.sides = s.sides ∧ p.radius = s.radius ∧ p.x = s.x ∧ p.y = s.y ∧ p.z = s.z ∧
    p.vx = s.vx ∧ p.vy = s.vy ∧ p.vz = s.vz

/-- Two optional shapes agree: both are absent, or both are present and agree. -/
def AgreesOpt : Option (Parallel.Shape α) → Option (Shape α) → Prop
  | some p, some s => Agrees p s
  | none, none => True
  | _, _ => False

/-- The outcomes of the two variants on a store agree: both are the division-by-zero outcome,
or both are stores of shapes that agree position by position. -/
def StoresAgree : Option (List (Parallel.Shape α) × ℕ) → Option (List (Shape α)) → Prop
  | some (ps, _), some ss => List.Forall₂ Agrees ps ss
  | none, none => True
  | _, _ => False

/-- The ranges that `generateShapes` keeps: `sides ∈ {3, 4, 5}` and every float field in the
closed interval that `rand() / RAND_MAX ∈ [0, 1]` spans. -/
def InGeneratorRanges (shape : Shape α) : Prop :=
  (shape.sides = 3 ∨ shape.sides = 4 ∨ shape.sides = 5) ∧
  (0.05 ≤ shape.radius ∧ shape.radius ≤ 0.15) ∧
  (-1 ≤ shape.x ∧ shape.x ≤ 1) ∧ (-1 ≤ shape.y ∧ shape.y ≤ 1) ∧
  (NEAR_PLANE ≤ shape.z ∧ shape.z ≤ FAR_PLANE) ∧
  (-0.25 ≤ shape.vx ∧ shape.vx ≤ 0.25) ∧ (-0.25 ≤ shape.vy ∧ shape.vy ≤ 0.25) ∧
  (-0.25 ≤ shape.vz ∧ shape.vz ≤ 0.25) ∧
  (0 ≤ shape.r ∧ shape.r ≤ 1) ∧ (0 ≤ shape.g ∧ shape.g ≤ 1) ∧ (0 ≤ shape.b ∧ shape.b ≤ 1)

/-- The six walls that `updateShape` tests, in source order. -/
inductive Wall where
  | xLow
  | xHigh
  | yLow
  | yHigh
  | zNear
  | zFar
deriving DecidableEq, Repr

/-- The four walls tested with the projected radius `radius / z`. -/
def Wall.lateral : Wall → Bool
  | .zNear => false
  | .zFar => false
  | _ => true

/-- The shape lies exactly on the wall: the wall test would hold with equality. -/
def Wall.onWall (w : Wall) (shape : Shape α) : Prop :=
  match w with
  | .xLow => shape.x - shape.radius / shape.z = -1
  | .xHigh => shape.x + shape.radius / shape.z = 1
  | .yLow => shape.y - shape.radius / shape.z = -1
  | .yHigh => shape.y + shape.radius / shape.z = 1
  | .zNear => shape.z - shape.radius = NEAR_PLANE
  | .zFar => shape.z + shape.radius = FAR_PLANE

/-- The velocity component of the wall's axis points out of the frustum. -/
def Wall.outward (w : Wall) (shape : Shape α) : Prop :=
  match w with
  | .xLow => shape.vx < 0
  | .xHigh => 0 < shape.vx
  | .yLow => shape.vy < 0
  | .yHigh => 0 < shape.vy
  | .zNear => shape.vz < 0
  | .zFar => 0 < shape.vz

/-- The coordinate of the wall's axis. -/
def Wall.coord (w : Wall) (shape : Shape α) : α :=
  match w with
  | .xLow => shape.x
  | .xHigh => shape.x
  | .yLow => shape.y
  | .yHigh => shape.y
  | .zNear => shape.z
  | .zFar => shape.z

/-- The velocity component of the wall's axis. -/
def Wall.speed (w : Wall) (shape : Shape α) : α :=
  match w with
  | .xLow => shape.vx
  | .xHigh => shape.vx
  | .yLow => shape.vy
  | .yHigh => shape.vy
  | .zNear => shape.vz
  | .zFar => shape.vz

/-- The wall on the other side of the same axis. -/
def Wall.opposite : Wall → Wall
  | .xLow => .xHigh
  | .xHigh => .xLow
  | .yLow => .yHigh
  | .yHigh => .yLow
  | .zNear => .zFar
  | .zFar => .zNear

/-- The shape is not beyond the wall: the wall test of `updateShape` does not hold. -/
def Wall.within (w : Wall) (shape : Shape α) : Prop :=
  match w with
  | .xLow => -1 ≤ shape.x - shape.radius / shape.z
  | .xHigh => shape.x + shape.radius / shape.z ≤ 1
  | .yLow => -1 ≤ shape.y - shape.radius / shape.z
  | .yHigh => shape.y + shape.radius / shape.z ≤ 1
  | .zNear => NEAR_PLANE ≤ shape.z - shape.radius
  | .zFar => shape.z + shape.radius ≤ FAR_PLANE

/-- The number of loop iterations of one collision scan, run for the shape at index `i` of a
store of `n` shapes, that can move the shape at index `k`: the updated shape is compared with
each of the `n - 1` others, and each other shape with the updated one only. -/
def scanMoves (n i k : ℕ) : ℕ :=
  if k = i then n - 1 else 1

/-! ## Agreement of the two variants on the kinematic fields -/

omit [LinearOrderedField α] in
theorem toBasic_agrees (p : Parallel.Shape α) : Agrees p p.toBasic :=
  ⟨rfl, rfl, rfl, rfl, rfl, rfl, rfl, rfl⟩

omit [LinearOrderedField α] in
theorem agrees_eq (p : Parallel.Shape α) (s : Shape α) (h : Agrees p s) :
    ∃ rX rY rZ w cr cg cb, p = ⟨s.sides, s.radius, s.x, s.y, s.z, s.vx, s.vy, s.vz,
      rX, rY, rZ, w, cr, cg, cb⟩ := by
  obtain ⟨h1, h2, h3, h4, h5, h6, h7, h8⟩ := h
  cases p
  simp only at h1 h2 h3 h4 h5 h6 h7 h8
  subst h1 h2 h3 h4 h5 h6 h7 h8
  exact ⟨_, _, _, _, _, _, _, rfl⟩

theorem integrate_agrees [FloorRing α] (p : Parallel.Shape α) (s : Shape α) (dt : α)
    (h : Agrees p s) : Agrees (Parallel.integrate p dt) (integrate s dt) := by
  obtain ⟨rX, rY, rZ, w, cr, cg, cb, rfl⟩ := agrees_eq p s h
  exact ⟨rfl, rfl, rfl, rfl, rfl, rfl, rfl, rfl⟩

theorem clampLateral_agrees (p : Parallel.Shape α) (s : Shape α) (h : Agrees p s) :
    AgreesOpt (Parallel.clampLateral p) (clampLateral s) := by
  obtain ⟨rX, rY, rZ, w, cr, cg, cb, rfl⟩ := agrees_eq p s h
  simp only [Parallel.clampLateral, clampLateral]
  by_cases hz : s.z = 0
  · simp only [if_pos hz, AgreesOpt]
  · simp only [if_neg hz, AgreesOpt]
    split_ifs <;> exact ⟨rfl, rfl, rfl, rfl, rfl, rfl, rfl, rfl⟩

theorem clampDepth_agrees (p : Parallel.Shape α) (s : Shape α) (h : Agrees p s) :
    Agrees (Parallel.clampDepth p) (clampDepth s) := by
  obtain ⟨rX, rY, rZ, w, cr, cg, cb, rfl⟩ := agrees_eq p s h
  simp only [Parallel.clampDepth, clampDepth]
  split_ifs <;> exact ⟨rfl, rfl, rfl, rfl, rfl, rfl, rfl, rfl⟩

theorem boundaryStep_agrees [FloorRing α] (p : Parallel.Shape α) (s : Shape α) (dt : α)
    (h : Agrees p s) : AgreesOpt (Parallel.boundaryStep p dt) (boundaryStep s dt) := by
  have hl := clampLateral_agrees _ _ (integrate_agrees p s dt h)
  simp only [Parallel.boundaryStep, boundaryStep]
  rcases hp : Parallel.clampLateral (Parallel.integrate p dt) with _ | p1 <;>
    rcases hs : clampLateral (integrate s dt) with _ | s1 <;>
    rw [hp, hs] at hl <;> simp only [AgreesOpt, Option.map] at hl ⊢
  exact clampDepth_agrees p1 s1 hl

omit [LinearOrderedField α] in
theorem agrees_getElem? : ∀ (ps : List (Parallel.Shape α)) (ss : List (Shape α)) (i : ℕ),
    List.Forall₂ Agrees ps ss → AgreesOpt ps[i]? ss[i]?
  | [], [], _, _ => by simp [AgreesOpt]
  | p :: ps, s :: ss, 0, h => by
    simpa [AgreesOpt] using (List.forall₂_cons.1 h).1
  | p :: ps, s :: ss, i + 1, h => by
    simpa using agrees_getElem? ps ss i (List.forall₂_cons.1 h).2

omit [LinearOrderedField α] in
theorem agrees_set : ∀ (ps : List (Parallel.Shape α)) (ss : List (Shape α)) (i : ℕ)
    (p : Parallel.Shape α) (s : Shape α),
    List.Forall₂ Agrees ps ss → Agrees p s → List.Forall₂ Agrees (ps.set i p) (ss.set i s)
  | [], [], _, _, _, _, _ => by simp
  | p0 :: ps, s0 :: ss, 0, p, s, h, hps => by
    simpa using ⟨hps, (List.forall₂_cons.1 h).2⟩
  | p0 :: ps, s0 :: ss, i + 1, p, s, h, hps => by
    simpa using ⟨(List.forall₂_cons.1 h).1, agrees_set ps ss i p s (List.forall₂_cons.1 h).2 hps⟩

/-- The loop bodies of the two variants agree on the kinematic fields of both shapes. -/
theorem resolvePair_agrees (RAND_MAX : ℕ) (rand : ℕ → ℕ) (sqrt : α → α)
    (a b : Parallel.Shape α) (sa sb : Shape α) (k : ℕ) (ha : Agrees a sa) (hb : Agrees b sb) :
    match Parallel.resolvePair RAND_MAX rand sqrt a b k, resolvePair sqrt sa sb with
    | some (a', b', _), some (sa', sb') => Agrees a' sa' ∧ Agrees b' sb'
    | none, none => True
    | _, _ => False := by
  obtain ⟨rX, rY, rZ, w, cr, cg, cb, rfl⟩ := agrees_eq a sa ha
  obtain ⟨rX', rY', rZ', w', cr', cg', cb', rfl⟩ := agrees_eq b sb hb
  simp only [Parallel.resolvePair, resolvePair]
  split_ifs <;> trivial

theorem collide_agrees (RAND_MAX : ℕ) (rand : ℕ → ℕ) (sqrt : α → α) (i j : ℕ)
    (ps : List (Parallel.Shape α)) (ss : List (Shape α)) (k : ℕ)
    (h : List.Forall₂ Agrees ps ss) :
    StoresAgree (Parallel.collide RAND_MAX rand sqrt i j ps k) (collide sqrt i j ss) := by
  have hi := agrees_getElem? ps ss i h
  have hj := agrees_getElem? ps ss j h
  simp only [Parallel.collide, collide]
  rcases hpi : ps[i]? with _ | a <;> rcases hsi : ss[i]? with _ | sa <;>
    rw [hpi, hsi] at hi <;> simp only [AgreesOpt] at hi
  · exact h
  · rcases hpj : ps[j]? with _ | b <;> rcases hsj : ss[j]? with _ | sb <;>
      rw [hpj, hsj] at hj <;> simp only [AgreesOpt] at hj
    · exact h
    · have hr := resolvePair_agrees RAND_MAX rand sqrt a b sa sb k hi hj
      rcases hp : Parallel.resolvePair RAND_MAX rand sqrt a b k with _ | ⟨a', b', k'⟩ <;>
        rcases hs : resolvePair sqrt sa sb with _ | ⟨sa', sb'⟩ <;>
        rw [hp, hs] at hr <;> simp only at hr <;> simp only [hp, hs, StoresAgree]
      exact agrees_set _ _ j b' sb' (agrees_set ps ss i a' sa' h hr.1) hr.2

theorem scanFrom_agrees (RAND_MAX : ℕ) (rand : ℕ → ℕ) (sqrt : α → α) (i : ℕ) :
    ∀ (js : List ℕ) (ps : List (Parallel.Shape α)) (ss : List (Shape α)) (k : ℕ),
      List.Forall₂ Agrees ps ss →
      StoresAgree (Parallel.scanFrom RAND_MAX rand sqrt i js ps k) (scanFrom sqrt i js ss)
  | [], _, _, _, h => h
  | j :: js, ps, ss, k, h => by
    simp only [Parallel.scanFrom, scanFrom]
    split_ifs with hji
    · exact scanFrom_agrees RAND_MAX rand sqrt i js ps ss k h
    · have hc := collide_agrees RAND_MAX rand sqrt i j ps ss k h
      rcases hp : Parallel.collide RAND_MAX rand sqrt i j ps k with _ | ⟨ps', k'⟩ <;>
        rcases hs : collide sqrt i j ss with _ | ss' <;>
        rw [hp, hs] at hc <;> simp only [StoresAgree] at hc ⊢
      exact scanFrom_agrees RAND_MAX rand sqrt i js ps' ss' k' hc

theorem collisionScan_agrees (RAND_MAX : ℕ) (rand : ℕ → ℕ) (sqrt : α → α) (i : ℕ)
    (ps : List (Parallel.Shape α)) (ss : List (Shape α)) (k : ℕ)
    (h : List.Forall₂ Agrees ps ss) :
    StoresAgree (Parallel.collisionScan RAND_MAX rand sqrt i ps k) (collisionScan sqrt i ss) := by
  simp only [Parallel.collisionScan, collisionScan, h.length_eq]
  exact scanFrom_agrees RAND_MAX rand sqrt i _ ps ss k h

/-- The two variants of `updateShape`, run on stores that agree on `sides`, `radius`, position
and velocity, both divide by zero or return stores that agree again. -/
theorem updateShape_agrees [FloorRing α] (RAND_MAX : ℕ) (rand : ℕ → ℕ) (sqrt : α → α)
    (ps : List (Parallel.Shape α)) (ss : List (Shape α)) (i : ℕ) (dt : α) (k : ℕ)
    (h : List.Forall₂ Agrees ps ss) :
    StoresAgree (Parallel.updateShape RAND_MAX rand sqrt ps i dt k)
      (updateShape sqrt ss i dt) := by
  have hi := agrees_getElem? ps ss i h
  simp only [Parallel.updateShape, updateShape]
  rcases hpi : ps[i]? with _ | a <;> rcases hsi : ss[i]? with _ | sa <;>
    rw [hpi, hsi] at hi <;> simp only [AgreesOpt] at hi
  · exact h
  · have hb := boundaryStep_agrees a sa dt hi
    rcases hp : Parallel.boundaryStep a dt with _ | a' <;>
      rcases hs : boundaryStep sa dt with _ | sa' <;>
      rw [hp, hs] at hb <;> simp only [AgreesOpt] at hb <;> simp only [hp, hs, StoresAgree]
    exact collisionScan_agrees RAND_MAX rand sqrt i _ _ k (agrees_set ps ss i a' sa' h hb)

omit [LinearOrderedField α] in
theorem map_toBasic_agrees : ∀ ps : List (Parallel.Shape α),
    List.Forall₂ Agrees ps (ps.map Parallel.Shape.toBasic)
  | [] => List.Forall₂.nil
  | p :: ps => List.Forall₂.cons (toBasic_agrees p) (map_toBasic_agrees ps)

omit [LinearOrderedField α] in
theorem agrees_velocity : ∀ (ps : List (Parallel.Shape α)) (ss : List (Shape α)),
    List.Forall₂ Agrees ps ss → ps.map Parallel.velocity = ss.map velocity
  | [], [], _ => rfl
  | p :: ps, s :: ss, h => by
    obtain ⟨⟨_, _, _, _, _, h6, h7, h8⟩, ht⟩ := List.forall₂_cons.1 h
    simp only [List.map_cons, agrees_velocity ps ss ht, Parallel.velocity, velocity, h6, h7, h8]

/-- What agreement means for the outcome of one loop iteration of `parallel.cpp`: it has no
value exactly when that of `main.cpp` has none. -/
theorem collide_none_agrees (RAND_MAX : ℕ) (rand : ℕ → ℕ) (sqrt : α → α) (i j : ℕ)
    (ps : List (Parallel.Shape α)) (ss : List (Shape α)) (k : ℕ)
    (h : List.Forall₂ Agrees ps ss) :
    Parallel.collide RAND_MAX rand sqrt i j ps k = none ↔ collide sqrt i j ss = none := by
  have hc := collide_agrees RAND_MAX rand sqrt i j ps ss k h
  rcases hp : Parallel.collide RAND_MAX rand sqrt i j ps k with _ | ⟨ps', k'⟩ <;>
    rcases hs : collide sqrt i j ss with _ | ss' <;>
    rw [hp, hs] at hc <;> simp only [StoresAgree] at hc <;> simp

/-- What agreement means for a collision scan of `parallel.cpp` that returns a store: the scan
of `main.cpp` returns a store that agrees with it. -/
theorem collisionScan_some_agrees (RAND_MAX : ℕ) (rand : ℕ → ℕ) (sqrt : α → α) (i : ℕ)
    (ps ps' : List (Parallel.Shape α)) (ss : List (Shape α)) (k k' : ℕ)
    (h : List.Forall₂ Agrees ps ss)
    (hp : Parallel.collisionScan RAND_MAX rand sqrt i ps k = some (ps', k')) :
    ∃ ss', collisionScan sqrt i ss = some ss' ∧ List.Forall₂ Agrees ps' ss' := by
  have hc := collisionScan_agrees RAND_MAX rand sqrt i ps ss k h
  rw [hp] at hc
  rcases hs : collisionScan sqrt i ss with _ | ss' <;> rw [hs] at hc <;>
    simp only [StoresAgree] at hc
  exact ⟨ss', rfl, hc⟩

/-! ## The boundary step -/

theorem clampLateral_eq_none (shape : Shape α) : clampLateral shape = none ↔ shape.z = 0 := by
  unfold clampLateral
  split_ifs with h <;> simp [h]

theorem axisClamp_bounds (p c : α) (hp1 : p ≤ 1) :
    -1 + p ≤ axisClamp p c ∧ axisClamp p c ≤ 1 - p := by
  simp only [axisClamp]
  split_ifs <;> constructor <;> linarith

theorem clampLateral_some (shape : Shape α) (hz : shape.z ≠ 0) :
    ∃ shape', clampLateral shape = some shape' ∧ shape'.z = shape.z ∧
      shape'.radius = shape.radius ∧
      shape'.x = axisClamp (shape.radius / shape.z) shape.x ∧
      shape'.y = axisClamp (shape.radius / shape.z) shape.y := by
  simp only [clampLateral, if_neg hz, axisClamp]
  refine ⟨_, rfl, ?_, ?_, ?_, ?_⟩ <;> split_ifs <;> rfl

theorem clampLateral_radius (shape shape' : Shape α) (h : clampLateral shape = some shape') :
    shape'.radius = shape.radius := by
  have hz : shape.z ≠ 0 := fun h0 => by
    rw [(clampLateral_eq_none shape).2 h0] at h
    exact Option.noConfusion h
  obtain ⟨s1, hs1, _, hr, _⟩ := clampLateral_some shape hz
  rw [hs1] at h
  cases h
  exact hr

theorem clampDepth_radius (shape : Shape α) : (clampDepth shape).radius = shape.radius := by
  simp only [clampDepth]
  split_ifs <;> rfl

theorem clampDepth_x (shape : Shape α) : (clampDepth shape).x = shape.x := by
  simp only [clampDepth]
  split_ifs <;> rfl

theorem clampDepth_y (shape : Shape α) : (clampDepth shape).y = shape.y := by
  simp only [clampDepth]
  split_ifs <;> rfl

theorem clampDepth_z_ge (shape : Shape α) (hfar : shape.z + shape.radius ≤ FAR_PLANE) :
    shape.z ≤ (clampDepth shape).z := by
  simp only [clampDepth]
  split_ifs <;> simp_all <;> linarith

/-- The depth tests leave a shape of radius at most `4.95` inside the depth range. -/
theorem clampDepth_inRange (shape : Shape α) (hhi : shape.radius ≤ 4.95) :
    DepthInRange (clampDepth shape) := by
  unfold DepthInRange clampDepth NEAR_PLANE FAR_PLANE
  norm_num at hhi ⊢
  split_ifs <;> constructor <;> simp_all <;> linarith

theorem boundaryStep_eq_none (shape : Shape α) (dt : α) :
    boundaryStep shape dt = none ↔ shape.z + shape.vz * dt = 0 := by
  simp [boundaryStep, clampLateral_eq_none, integrate]

theorem boundaryStep_inRange (shape shape' : Shape α) (dt : α) (hhi : shape.radius ≤ 0.15)
    (h : boundaryStep shape dt = some shape') : DepthInRange shape' := by
  simp only [boundaryStep, Option.map_eq_some'] at h
  obtain ⟨s1, hs1, rfl⟩ := h
  apply clampDepth_inRange
  rw [clampLateral_radius (integrate shape dt) s1 hs1]
  show shape.radius ≤ 4.95
  norm_num at hhi ⊢
  linarith

/-- What agreement means for the outcome of the boundary step of `parallel.cpp`: it has no
value exactly when that of `main.cpp` has none, and its value agrees with that of `main.cpp`. -/
theorem boundaryStep_transfer [FloorRing α] (p : Parallel.Shape α) (s : Shape α) (dt : α)
    (h : Agrees p s) :
    (Parallel.boundaryStep p dt = none ↔ boundaryStep s dt = none) ∧
    (∀ p', Parallel.boundaryStep p dt = some p' →
      ∃ s', boundaryStep s dt = some s' ∧ Agrees p' s') ∧
    (∀ s', boundaryStep s dt = some s' →
      ∃ p', Parallel.boundaryStep p dt = some p' ∧ Agrees p' s') := by
  have hb := boundaryStep_agrees p s dt h
  rcases hp : Parallel.boundaryStep p dt with _ | p1 <;>
    rcases hs : boundaryStep s dt with _ | s1 <;>
    rw [hp, hs] at hb <;> simp only [AgreesOpt] at hb
  · simp
  · simpa using hb

/-- C1. Boundary step keeps the shape inside the depth range: for a radius in `[0.05, 0.15]`,
every velocity, starting position and `dt ≥ 0`, every state that integration plus the wall
tests produce satisfies `NEAR_PLANE ≤ z - radius` and `z + radius ≤ FAR_PLANE`; a state is
produced in every case but the one where the integrated `z` is exactly `0`, where the
projected radius `radius / z` has no value. The first half is `updateShape` of `main.cpp`, the
second half `updateShape` of `parallel.cpp` on a shape with the same kinematic fields. -/
theorem boundaryStep_depth [FloorRing α] (shape : Shape α) (pshape : Parallel.Shape α) (dt : α)
    (_hlo : 0.05 ≤ shape.radius) (hhi : shape.radius ≤ 0.15) (_hdt : 0 ≤ dt)
    (hagree : Agrees pshape shape) :
    ((∀ shape', boundaryStep shape dt = some shape' →
        NEAR_PLANE ≤ shape'.z - shape'.radius ∧ shape'.z + shape'.radius ≤ FAR_PLANE) ∧
      (boundaryStep shape dt = none ↔ shape.z + shape.vz * dt = 0)) ∧
    ((∀ pshape', Parallel.boundaryStep pshape dt = some pshape' →
        NEAR_PLANE ≤ pshape'.z - pshape'.radius ∧ pshape'.z + pshape'.radius ≤ FAR_PLANE) ∧
      (Parallel.boundaryStep pshape dt = none ↔ pshape.z + pshape.vz * dt = 0)) := by
  obtain ⟨hnone, hsome, _⟩ := boundaryStep_transfer pshape shape dt hagree
  refine ⟨⟨fun shape' h => boundaryStep_inRange shape shape' dt hhi h,
    boundaryStep_eq_none shape dt⟩, ?_, ?_⟩
  · intro pshape' hp
    obtain ⟨s', hs', ha⟩ := hsome pshape' hp
    have hd := boundaryStep_inRange shape s' dt hhi hs'
    obtain ⟨_, h2, _, _, h5, _, _, _⟩ := ha
    rw [h2, h5]
    exact hd
  · rw [hnone, boundaryStep_eq_none]
    obtain ⟨_, _, _, _, h5, _, _, h8⟩ := hagree
    rw [h5, h8]

/-- Witness of C1: radius `0.1`, depth `1`, `vz = 20` and `dt = 1` (the far plane is hit); the
shape of `parallel.cpp` also has a rotation of `45` degrees and a rotation speed of `30`. -/
theorem boundaryStep_depth_witness :
    ((∀ shape', boundaryStep (⟨3, 0.1, 0, 0, 1, 0, 0, 20, 1, 1, 1⟩ : Shape ℚ) 1 = some shape' →
        NEAR_PLANE ≤ shape'.z - shape'.radius ∧ shape'.z + shape'.radius ≤ FAR_PLANE) ∧
      (boundaryStep (⟨3, 0.1, 0, 0, 1, 0, 0, 20, 1, 1, 1⟩ : Shape ℚ) 1 = none ↔
        (1 : ℚ) + 20 * 1 = 0)) ∧
    ((∀ pshape', Parallel.boundaryStep
          (⟨3, 0.1, 0, 0, 1, 0, 0, 20, 45, 0, 0, 30, 1, 1, 1⟩ : Parallel.Shape ℚ) 1 =
            some pshape' →
        NEAR_PLANE ≤ pshape'.z - pshape'.radius ∧ pshape'.z + pshape'.radius ≤ FAR_PLANE) ∧
      (Parallel.boundaryStep
          (⟨3, 0.1, 0, 0, 1, 0, 0, 20, 45, 0, 0, 30, 1, 1, 1⟩ : Parallel.Shape ℚ) 1 = none ↔
        (1 : ℚ) + 20 * 1 = 0)) :=
  boundaryStep_depth ⟨3, 0.1, 0, 0, 1, 0, 0, 20, 1, 1, 1⟩
    ⟨3, 0.1, 0, 0, 1, 0, 0, 20, 45, 0, 0, 30, 1, 1, 1⟩ 1
    (by norm_num) (by norm_num) (by norm_num) ⟨rfl, rfl, rfl, rfl, rfl, rfl, rfl, rfl⟩

/-- C2, as stated, fails: radius `0.1` at `x = 0.98`, `z = 9.9` with `vx = vz = 0.25` and
`dt = 0.2`. The high `x` wall clamps `x` to `1 - 0.1 / 9.95`, the far plane then clamps `z` to
`9.9`, and `x + radius / z` exceeds `1`. -/
theorem boundaryStep_footprint_counterexample :
    0 < (0.1 : ℝ) ∧ 0 ≤ (0.2 : ℝ) ∧
    ∃ shape', boundaryStep (⟨3, 0.1, 0.98, 0, 9.9, 0.25, 0, 0.25, 1, 1, 1⟩ : Shape ℝ) 0.2
        = some shape' ∧ ¬ (shape'.x + shape'.radius / shape'.z ≤ 1) := by
  refine ⟨by norm_num, by norm_num, ⟨3, 0.1, 197 / 199, 0, 9.9, -0.25, 0, -0.25, 1, 1, 1⟩, ?_, ?_⟩
  · norm_num [boundaryStep, integrate, clampLateral, clampDepth, NEAR_PLANE, FAR_PLANE]
  · norm_num

/-- The projected footprint of a shape lies on screen for the main variant when the
integrated depth is at least the radius and the far-plane test does not fire. -/
theorem boundaryStep_onScreen (shape : Shape α) (dt : α)
    (hr : 0 < shape.radius)
    (hz : shape.radius ≤ shape.z + shape.vz * dt)
    (hfar : shape.z + shape.vz * dt + shape.radius ≤ FAR_PLANE) :
    ∃ shape', boundaryStep shape dt = some shape' ∧
      -1 ≤ shape'.x - shape'.radius / shape'.z ∧ shape'.x + shape'.radius / shape'.z ≤ 1 ∧
      -1 ≤ shape'.y - shape'.radius / shape'.z ∧ shape'.y + shape'.radius / shape'.z ≤ 1 := by
  have hz0 : 0 < (integrate shape dt).z := lt_of_lt_of_le hr hz
  obtain ⟨s1, hs1, hs1z, hs1r, hs1x, hs1y⟩ := clampLateral_some (integrate shape dt) hz0.ne'
  have hr1 : (integrate shape dt).radius = shape.radius := rfl
  have hz1 : (integrate shape dt).z = shape.z + shape.vz * dt := rfl
  refine ⟨clampDepth s1, by simp [boundaryStep, hs1], ?_⟩
  have hle : s1.z ≤ (clampDepth s1).z :=
    clampDepth_z_ge s1 (by rw [hs1z, hs1r, hr1, hz1]; exact hfar)
  have hs1pos : 0 < s1.z := by rw [hs1z]; exact hz0
  have hp1 : s1.radius / s1.z ≤ 1 :=
    (div_le_one hs1pos).2 (by rw [hs1z, hs1r, hr1, hz1]; exact hz)
  have hq : s1.radius / (clampDepth s1).z ≤ s1.radius / s1.z :=
    div_le_div_of_nonneg_left (by rw [hs1r, hr1]; exact hr.le) hs1pos hle
  have hq0 : 0 ≤ s1.radius / (clampDepth s1).z :=
    div_nonneg (by rw [hs1r, hr1]; exact hr.le) (hs1pos.le.trans hle)
  have hx := axisClamp_bounds (s1.radius / s1.z) (integrate shape dt).x hp1
  have hy := axisClamp_bounds (s1.radius / s1.z) (integrate shape dt).y hp1
  rw [hs1z, hs1r] at hx hy
  rw [← hs1x] at hx
  rw [← hs1y] at hy
  rw [hs1z, hs1r] at hq
  rw [clampDepth_x, clampDepth_y, clampDepth_radius]
  rw [hs1r] at hq0 ⊢
  refine ⟨?_, ?_, ?_, ?_⟩ <;> linarith [hx.1, hx.2, hy.1, hy.2]

/-- C2, amended. For a positive radius, every velocity, starting position and `dt ≥ 0` such
that the integrated depth `z + vz * dt` is at least the radius (projected radius at most `1`)
and the far-plane test does not fire, the boundary step produces a state whose projected
footprint, taken with the final `z`, lies in `[-1, 1]` on both axes. The first half is
`updateShape` of `main.cpp`, the second half `updateShape` of `parallel.cpp` on a shape with
the same kinematic fields. -/
theorem boundaryStep_footprint [FloorRing α] (shape : Shape α) (pshape : Parallel.Shape α)
    (dt : α) (hr : 0 < shape.radius) (_hdt : 0 ≤ dt)
    (hz : shape.radius ≤ shape.z + shape.vz * dt)
    (hfar : shape.z + shape.vz * dt + shape.radius ≤ FAR_PLANE)
    (hagree : Agrees pshape shape) :
    (∃ shape', boundaryStep shape dt = some shape' ∧
      -1 ≤ shape'.x - shape'.radius / shape'.z ∧ shape'.x + shape'.radius / shape'.z ≤ 1 ∧
      -1 ≤ shape'.y - shape'.radius / shape'.z ∧ shape'.y + shape'.radius / shape'.z ≤ 1) ∧
    (∃ pshape', Parallel.boundaryStep pshape dt = some pshape' ∧
      -1 ≤ pshape'.x - pshape'.radius / pshape'.z ∧
      pshape'.x + pshape'.radius / pshape'.z ≤ 1 ∧
      -1 ≤ pshape'.y - pshape'.radius / pshape'.z ∧
      pshape'.y + pshape'.radius / pshape'.z ≤ 1) := by
  obtain ⟨shape', hs, hb⟩ := boundaryStep_onScreen shape dt hr hz hfar
  refine ⟨⟨shape', hs, hb⟩, ?_⟩
  obtain ⟨pshape', hp, ha⟩ := (boundaryStep_transfer pshape shape dt hagree).2.2 shape' hs
  obtain ⟨_, h2, h3, h4, h5, _, _, _⟩ := ha
  refine ⟨pshape', hp, ?_⟩
  rw [h2, h3, h4, h5]
  exact hb

/-- Witness of the amended C2: radius `0.1` at `x = 0.98`, `z = 1` with `vx = 0.25`, `vz = 0`
and `dt = 0.2` (the high `x` wall is hit, the far plane is not). -/
theorem boundaryStep_footprint_witness :
    (∃ shape', boundaryStep (⟨3, 0.1, 0.98, 0, 1, 0.25, 0, 0, 1, 1, 1⟩ : Shape ℚ) 0.2
        = some shape' ∧
      -1 ≤ shape'.x - shape'.radius / shape'.z ∧ shape'.x + shape'.radius / shape'.z ≤ 1 ∧
      -1 ≤ shape'.y - shape'.radius / shape'.z ∧ shape'.y + shape'.radius / shape'.z ≤ 1) ∧
    (∃ pshape', Parallel.boundaryStep
        (⟨3, 0.1, 0.98, 0, 1, 0.25, 0, 0, 45, 0, 0, 30, 1, 1, 1⟩ : Parallel.Shape ℚ) 0.2
          = some pshape' ∧
      -1 ≤ pshape'.x - pshape'.radius / pshape'.z ∧
      pshape'.x + pshape'.radius / pshape'.z ≤ 1 ∧
      -1 ≤ pshape'.y - pshape'.radius / pshape'.z ∧
      pshape'.y + pshape'.radius / pshape'.z ≤ 1) :=
  boundaryStep_footprint ⟨3, 0.1, 0.98, 0, 1, 0.25, 0, 0, 1, 1, 1⟩
    ⟨3, 0.1, 0.98, 0, 1, 0.25, 0, 0, 45, 0, 0, 30, 1, 1, 1⟩ 0.2
    (by norm_num) (by norm_num) (by norm_num) (by norm_num [FAR_PLANE])
    ⟨rfl, rfl, rfl, rfl, rfl, rfl, rfl, rfl⟩

/-! ## The collision scan -/

theorem resolvePair_dist (sqrt : α → α) (a b : Shape α) :
    resolvePair sqrt a b =
      if centerDist sqrt a b < a.radius + b.radius then
        if centerDist sqrt a b = 0 then none
        else
          some
            ({ a with
                x := a.x - 0.5 * (centerDist sqrt a b - a.radius - b.radius) * (a.x - b.x) /
                  centerDist sqrt a b
                y := a.y - 0.5 * (centerDist sqrt a b - a.radius - b.radius) * (a.y - b.y) /
                  centerDist sqrt a b
                z := a.z - 0.5 * (centerDist sqrt a b - a.radius - b.radius) * (a.z - b.z) /
                  centerDist sqrt a b
                vx := b.vx
                vy := b.vy
                vz := b.vz },
             { b with
                x := b.x + 0.5 * (centerDist sqrt a b - a.radius - b.radius) * (a.x - b.x) /
                  centerDist sqrt a b
                y := b.y + 0.5 * (centerDist sqrt a b - a.radius - b.radius) * (a.y - b.y) /
                  centerDist sqrt a b
                z := b.z + 0.5 * (centerDist sqrt a b - a.radius - b.radius) * (a.z - b.z) /
                  centerDist sqrt a b
                vx := a.vx
                vy := a.vy
                vz := a.vz })
      else some (a, b) := rfl

theorem centerDist_pos_iff (a b : Shape ℝ) :
    0 < centerDist Real.sqrt a b ↔ (a.x ≠ b.x ∨ a.y ≠ b.y ∨ a.z ≠ b.z) := by
  unfold centerDist
  rw [Real.sqrt_pos]
  constructor
  · intro h
    by_contra hc
    push_neg at hc
    obtain ⟨hx, hy, hz⟩ := hc
    simp [hx, hy, hz] at h
  · intro h
    rcases h with h | h | h
    · have := mul_self_pos.2 (sub_ne_zero.2 h)
      nlinarith [mul_self_nonneg (a.y - b.y), mul_self_nonneg (a.z - b.z)]
    · have := mul_self_pos.2 (sub_ne_zero.2 h)
      nlinarith [mul_self_nonneg (a.x - b.x), mul_self_nonneg (a.z - b.z)]
    · have := mul_self_pos.2 (sub_ne_zero.2 h)
      nlinarith [mul_self_nonneg (a.y - b.y), mul_self_nonneg (a.x - b.x)]

theorem centerDist_nonneg (a b : Shape ℝ) : 0 ≤ centerDist Real.sqrt a b :=
  Real.sqrt_nonneg _

theorem centerDist_eq_zero_iff (a b : Shape ℝ) :
    centerDist Real.sqrt a b = 0 ↔ (a.x = b.x ∧ a.y = b.y ∧ a.z = b.z) := by
  have h := centerDist_pos_iff a b
  have h0 := centerDist_nonneg a b
  constructor
  · intro he
    by_contra hc
    have : 0 < centerDist Real.sqrt a b := h.2 (by tauto)
    linarith
  · intro he
    by_contra hc
    have hpos : 0 < centerDist Real.sqrt a b := lt_of_le_of_ne h0 (Ne.symm hc)
    have := h.1 hpos
    tauto

theorem resolvePair_eq_none (sqrt : α → α) (a b : Shape α) :
    resolvePair sqrt a b = none ↔
      centerDist sqrt a b < a.radius + b.radius ∧ centerDist sqrt a b = 0 := by
  rw [resolvePair_dist]
  by_cases h1 : centerDist sqrt a b < a.radius + b.radius
  · by_cases h2 : centerDist sqrt a b = 0
    · rw [if_pos h1, if_pos h2]
      exact ⟨fun _ => ⟨h1, h2⟩, fun _ => rfl⟩
    · rw [if_pos h1, if_neg h2]
      exact ⟨fun h => Option.noConfusion h, fun h => absurd h.2 h2⟩
  · rw [if_neg h1]
    exact ⟨fun h => Option.noConfusion h, fun h => absurd h.1 h1⟩

theorem collide_eq_none (sqrt : α → α) (shapes : List (Shape α)) (i j : ℕ) (a b : Shape α)
    (ha : shapes[i]? = some a) (hb : shapes[j]? = some b) :
    collide sqrt i j shapes = none ↔ resolvePair sqrt a b = none := by
  simp only [collide, ha, hb]
  cases h : resolvePair sqrt a b with
  | none => simp
  | some p => obtain ⟨a', b'⟩ := p; simp

/-- The loop body of `main.cpp` on a compared pair, over the reals: a store is returned when
the centres differ, and there is no value exactly when the centres coincide and the radii have
a positive sum. -/
theorem collide_zero_dist (shapes : List (Shape ℝ)) (i j : ℕ) (a b : Shape ℝ)
    (ha : shapes[i]? = some a) (hb : shapes[j]? = some b) :
    ((a.x ≠ b.x ∨ a.y ≠ b.y ∨ a.z ≠ b.z) →
      0 < centerDist Real.sqrt a b ∧ ∃ shapes', collide Real.sqrt i j shapes = some shapes') ∧
    ((a.x = b.x ∧ a.y = b.y ∧ a.z = b.z) ∧ 0 < a.radius + b.radius →
      centerDist Real.sqrt a b = 0 ∧ centerDist Real.sqrt a b < a.radius + b.radius ∧
        collide Real.sqrt i j shapes = none) ∧
    (collide Real.sqrt i j shapes = none ↔
      (a.x = b.x ∧ a.y = b.y ∧ a.z = b.z) ∧ 0 < a.radius + b.radius) := by
  have hnone : collide Real.sqrt i j shapes = none ↔
      (a.x = b.x ∧ a.y = b.y ∧ a.z = b.z) ∧ 0 < a.radius + b.radius := by
    rw [collide_eq_none Real.sqrt shapes i j a b ha hb, resolvePair_eq_none,
      ← centerDist_eq_zero_iff]
    constructor
    · rintro ⟨h1, h2⟩
      exact ⟨h2, by rw [h2] at h1; exact h1⟩
    · rintro ⟨h1, h2⟩
      exact ⟨by rw [h1]; exact h2, h1⟩
  refine ⟨?_, ?_, hnone⟩
  · intro hne
    have hpos := (centerDist_pos_iff a b).2 hne
    refine ⟨hpos, ?_⟩
    cases hc : collide Real.sqrt i j shapes with
    | some s => exact ⟨s, rfl⟩
    | none =>
      have := (centerDist_eq_zero_iff a b).2 (hnone.1 hc).1
      linarith
  · intro h
    have h0 := (centerDist_eq_zero_iff a b).2 h.1
    exact ⟨h0, by rw [h0]; exact h.2, hnone.2 h⟩

/-- C10. Zero-distance divide: for a compared pair of distinct shapes whose centres differ,
`dist > 0` and the loop body produces a store (every division by `dist` is defined); for a
pair with coincident centres and `radiusA + radiusB > 0`, `dist = 0`, the overlap branch is
entered and the division has no value; the division-by-zero outcome arises in exactly that
case. The first half is the loop of `main.cpp`, the second half the loop of `parallel.cpp`. -/
theorem collide_division (shapes : List (Shape ℝ)) (pshapes : List (Parallel.Shape ℝ))
    (RAND_MAX : ℕ) (rand : ℕ → ℕ) (k i j : ℕ) (a b : Shape ℝ) (pa pb : Parallel.Shape ℝ)
    (_hij : i ≠ j) (ha : shapes[i]? = some a) (hb : shapes[j]? = some b)
    (hpa : pshapes[i]? = some pa) (hpb : pshapes[j]? = some pb) :
    (((a.x ≠ b.x ∨ a.y ≠ b.y ∨ a.z ≠ b.z) →
        0 < centerDist Real.sqrt a b ∧ ∃ shapes', collide Real.sqrt i j shapes = some shapes') ∧
      ((a.x = b.x ∧ a.y = b.y ∧ a.z = b.z) ∧ 0 < a.radius + b.radius →
        centerDist Real.sqrt a b = 0 ∧ centerDist Real.sqrt a b < a.radius + b.radius ∧
          collide Real.sqrt i j shapes = none) ∧
      (collide Real.sqrt i j shapes = none ↔
        (a.x = b.x ∧ a.y = b.y ∧ a.z = b.z) ∧ 0 < a.radius + b.radius)) ∧
    (((pa.x ≠ pb.x ∨ pa.y ≠ pb.y ∨ pa.z ≠ pb.z) →
        0 < Parallel.centerDist Real.sqrt pa pb ∧
          ∃ result, Parallel.collide RAND_MAX rand Real.sqrt i j pshapes k = some result) ∧
      ((pa.x = pb.x ∧ pa.y = pb.y ∧ pa.z = pb.z) ∧ 0 < pa.radius + pb.radius →
        Parallel.centerDist Real.sqrt pa pb = 0 ∧
          Parallel.centerDist Real.sqrt pa pb < pa.radius + pb.radius ∧
          Parallel.collide RAND_MAX rand Real.sqrt i j pshapes k = none) ∧
      (Parallel.collide RAND_MAX rand Real.sqrt i j pshapes k = none ↔
        (pa.x = pb.x ∧ pa.y = pb.y ∧ pa.z = pb.z) ∧ 0 < pa.radius + pb.radius)) := by
  refine ⟨collide_zero_dist shapes i j a b ha hb, ?_⟩
  have hn := collide_none_agrees RAND_MAX rand Real.sqrt i j pshapes _ k
    (map_toBasic_agrees pshapes)
  obtain ⟨h1, h2, h3⟩ := collide_zero_dist (pshapes.map Parallel.Shape.toBasic) i j
    pa.toBasic pb.toBasic (by simp [hpa]) (by simp [hpb])
  refine ⟨?_, ?_, ?_⟩
  · intro hne
    obtain ⟨hpos, shapes', hs⟩ := h1 hne
    refine ⟨hpos, ?_⟩
    rcases hc : Parallel.collide RAND_MAX rand Real.sqrt i j pshapes k with _ | result
    · rw [hn.1 hc] at hs
      exact Option.noConfusion hs
    · exact ⟨result, rfl⟩
  · intro h
    obtain ⟨h0, hlt, hnone⟩ := h2 h
    exact ⟨h0, hlt, hn.2 hnone⟩
  · rw [hn]
    exact h3

/-- Witness of C10: two shapes of radius `0.1` with the same centre, in both variants. -/
theorem collide_division_witness :
    ((((0 : ℝ) ≠ 0 ∨ (0 : ℝ) ≠ 0 ∨ (1 : ℝ) ≠ 1) →
        0 < centerDist Real.sqrt (⟨3, 0.1, 0, 0, 1, 0, 0, 0, 1, 1, 1⟩ : Shape ℝ)
          ⟨4, 0.1, 0, 0, 1, 0, 0, 0, 1, 1, 1⟩ ∧
        ∃ shapes', collide Real.sqrt 0 1
          [(⟨3, 0.1, 0, 0, 1, 0, 0, 0, 1, 1, 1⟩ : Shape ℝ), ⟨4, 0.1, 0, 0, 1, 0, 0, 0, 1, 1, 1⟩]
            = some shapes') ∧
      (((0 : ℝ) = 0 ∧ (0 : ℝ) = 0 ∧ (1 : ℝ) = 1) ∧ (0 : ℝ) < 0.1 + 0.1 →
        centerDist Real.sqrt (⟨3, 0.1, 0, 0, 1, 0, 0, 0, 1, 1, 1⟩ : Shape ℝ)
          ⟨4, 0.1, 0, 0, 1, 0, 0, 0, 1, 1, 1⟩ = 0 ∧
        centerDist Real.sqrt (⟨3, 0.1, 0, 0, 1, 0, 0, 0, 1, 1, 1⟩ : Shape ℝ)
          ⟨4, 0.1, 0, 0, 1, 0, 0, 0, 1, 1, 1⟩ < 0.1 + 0.1 ∧
        collide Real.sqrt 0 1
          [(⟨3, 0.1, 0, 0, 1, 0, 0, 0, 1, 1, 1⟩ : Shape ℝ), ⟨4, 0.1, 0, 0, 1, 0, 0, 0, 1, 1, 1⟩]
            = none) ∧
      (collide Real.sqrt 0 1
          [(⟨3, 0.1, 0, 0, 1, 0, 0, 0, 1, 1, 1⟩ : Shape ℝ), ⟨4, 0.1, 0, 0, 1, 0, 0, 0, 1, 1, 1⟩]
            = none ↔
        ((0 : ℝ) = 0 ∧ (0 : ℝ) = 0 ∧ (1 : ℝ) = 1) ∧ (0 : ℝ) < 0.1 + 0.1)) ∧
    ((((0 : ℝ) ≠ 0 ∨ (0 : ℝ) ≠ 0 ∨ (1 : ℝ) ≠ 1) →
        0 < Parallel.centerDist Real.sqrt
          (⟨3, 0.1, 0, 0, 1, 0, 0, 0, 0, 0, 0, 0, 1, 1, 1⟩ : Parallel.Shape ℝ)
          ⟨4, 0.1, 0, 0, 1, 0, 0, 0, 0, 0, 0, 0, 1, 1, 1⟩ ∧
        ∃ result, Parallel.collide 32767 (fun _ => 2000) Real.sqrt 0 1
          [(⟨3, 0.1, 0, 0, 1, 0, 0, 0, 0, 0, 0, 0, 1, 1, 1⟩ : Parallel.Shape ℝ),
            ⟨4, 0.1, 0, 0, 1, 0, 0, 0, 0, 0, 0, 0, 1, 1, 1⟩] 0 = some result) ∧
      (((0 : ℝ) = 0 ∧ (0 : ℝ) = 0 ∧ (1 : ℝ) = 1) ∧ (0 : ℝ) < 0.1 + 0.1 →
        Parallel.centerDist Real.sqrt
          (⟨3, 0.1, 0, 0, 1, 0, 0, 0, 0, 0, 0, 0, 1, 1, 1⟩ : Parallel.Shape ℝ)
          ⟨4, 0.1, 0, 0, 1, 0, 0, 0, 0, 0, 0, 0, 1, 1, 1⟩ = 0 ∧
        Parallel.centerDist Real.sqrt
          (⟨3, 0.1, 0, 0, 1, 0, 0, 0, 0, 0, 0, 0, 1, 1, 1⟩ : Parallel.Shape ℝ)
          ⟨4, 0.1, 0, 0, 1, 0, 0, 0, 0, 0, 0, 0, 1, 1, 1⟩ < 0.1 + 0.1 ∧
        Parallel.collide 32767 (fun _ => 2000) Real.sqrt 0 1
          [(⟨3, 0.1, 0, 0, 1, 0, 0, 0, 0, 0, 0, 0, 1, 1, 1⟩ : Parallel.Shape ℝ),
            ⟨4, 0.1, 0, 0, 1, 0, 0, 0, 0, 0, 0, 0, 1, 1, 1⟩] 0 = none) ∧
      (Parallel.collide 32767 (fun _ => 2000) Real.sqrt 0 1
          [(⟨3, 0.1, 0, 0, 1, 0, 0, 0, 0, 0, 0, 0, 1, 1, 1⟩ : Parallel.Shape ℝ),
            ⟨4, 0.1, 0, 0, 1, 0, 0, 0, 0, 0, 0, 0, 1, 1, 1⟩] 0 = none ↔
        ((0 : ℝ) = 0 ∧ (0 : ℝ) = 0 ∧ (1 : ℝ) = 1) ∧ (0 : ℝ) < 0.1 + 0.1)) :=
  collide_division [⟨3, 0.1, 0, 0, 1, 0, 0, 0, 1, 1, 1⟩, ⟨4, 0.1, 0, 0, 1, 0, 0, 0, 1, 1, 1⟩]
    [⟨3, 0.1, 0, 0, 1, 0, 0, 0, 0, 0, 0, 0, 1, 1, 1⟩,
      ⟨4, 0.1, 0, 0, 1, 0, 0, 0, 0, 0, 0, 0, 1, 1, 1⟩]
    32767 (fun _ => 2000) 0 0 1 _ _ _ _ (by norm_num) rfl rfl rfl rfl

theorem centerDist_mul_self (a b : Shape ℝ) :
    centerDist Real.sqrt a b * centerDist Real.sqrt a b =
      (a.x - b.x) * (a.x - b.x) + (a.y - b.y) * (a.y - b.y) + (a.z - b.z) * (a.z - b.z) := by
  unfold centerDist
  apply Real.mul_self_sqrt
  nlinarith [mul_self_nonneg (a.x - b.x), mul_self_nonneg (a.y - b.y),
    mul_self_nonneg (a.z - b.z)]

/-- An overlapping pair with distinct centres is separated to exactly the sum of the radii,
and the two velocity vectors are exchanged. -/
theorem resolvePair_separated (a b : Shape ℝ) (h0 : 0 < centerDist Real.sqrt a b)
    (h1 : centerDist Real.sqrt a b < a.radius + b.radius) :
    ∃ a' b', resolvePair Real.sqrt a b = some (a', b') ∧
      a'.radius = a.radius ∧ b'.radius = b.radius ∧
      centerDist Real.sqrt a' b' = a.radius + b.radius ∧
      velocity a' = velocity b ∧ velocity b' = velocity a := by
  rw [resolvePair_dist, if_pos h1, if_neg h0.ne']
  refine ⟨_, _, rfl, rfl, rfl, ?_, rfl, rfl⟩
  have hd := centerDist_mul_self a b
  have hR : 0 ≤ a.radius + b.radius := h0.le.trans h1.le
  generalize centerDist Real.sqrt a b = d at h0 h1 hd
  unfold centerDist
  rw [Real.sqrt_eq_iff_mul_self_eq (add_nonneg (add_nonneg (mul_self_nonneg _) (mul_self_nonneg _)) (mul_self_nonneg _)) hR]
  simp only
  have hd0 : d ≠ 0 := h0.ne'
  field_simp
  norm_num
  linear_combination (-(a.radius + b.radius) ^ 2) * hd

/-- C5. Pair separation is exact: in a store of exactly two shapes `A` and `B` with
`0 < dist < radiusA + radiusB`, the collision scan run for `A` (first or second in the store)
returns a store in which the centre distance is at least, and in fact equal to,
`radiusA + radiusB`, `A` carries the former velocity vector of `B` and `B` that of `A`. -/
theorem collisionScan_pair (A B : Shape ℝ) (h0 : 0 < centerDist Real.sqrt A B)
    (h1 : centerDist Real.sqrt A B < A.radius + B.radius) :
    (∃ A' B', collisionScan Real.sqrt 0 [A, B] = some [A', B'] ∧
      A'.radius = A.radius ∧ B'.radius = B.radius ∧
      A.radius + B.radius ≤ centerDist Real.sqrt A' B' ∧
      centerDist Real.sqrt A' B' = A.radius + B.radius ∧
      velocity A' = velocity B ∧ velocity B' = velocity A) ∧
    (∃ A' B', collisionScan Real.sqrt 1 [B, A] = some [B', A'] ∧
      A'.radius = A.radius ∧ B'.radius = B.radius ∧
      A.radius + B.radius ≤ centerDist Real.sqrt A' B' ∧
      centerDist Real.sqrt A' B' = A.radius + B.radius ∧
      velocity A' = velocity B ∧ velocity B' = velocity A) := by
  obtain ⟨A', B', hres, hrA, hrB, hd, hvA, hvB⟩ := resolvePair_separated A B h0 h1
  constructor
  · refine ⟨A', B', ?_, hrA, hrB, hd.ge, hd, hvA, hvB⟩
    simp [collisionScan, List.range_succ, scanFrom, collide, hres]
  · refine ⟨A', B', ?_, hrA, hrB, hd.ge, hd, hvA, hvB⟩
    simp [collisionScan, List.range_succ, scanFrom, collide, hres]

/-- Witness of C5: radii `0.1`, centres `0.15` apart on the `x` axis, zero velocities. -/
theorem collisionScan_pair_witness :
    (∃ A' B', collisionScan Real.sqrt 0
        [(⟨3, 0.1, 0, 0, 1, 0, 0, 0, 1, 1, 1⟩ : Shape ℝ), ⟨4, 0.1, 0.15, 0, 1, 0, 0, 0, 1, 1, 1⟩]
          = some [A', B'] ∧
      A'.radius = 0.1 ∧ B'.radius = 0.1 ∧
      (0.1 : ℝ) + 0.1 ≤ centerDist Real.sqrt A' B' ∧
      centerDist Real.sqrt A' B' = 0.1 + 0.1 ∧
      velocity A' = (0, 0, 0) ∧ velocity B' = (0, 0, 0)) ∧
    (∃ A' B', collisionScan Real.sqrt 1
        [(⟨4, 0.1, 0.15, 0, 1, 0, 0, 0, 1, 1, 1⟩ : Shape ℝ), ⟨3, 0.1, 0, 0, 1, 0, 0, 0, 1, 1, 1⟩]
          = some [B', A'] ∧
      A'.radius = 0.1 ∧ B'.radius = 0.1 ∧
      (0.1 : ℝ) + 0.1 ≤ centerDist Real.sqrt A' B' ∧
      centerDist Real.sqrt A' B' = 0.1 + 0.1 ∧
      velocity A' = (0, 0, 0) ∧ velocity B' = (0, 0, 0)) := by
  have hd : centerDist Real.sqrt (⟨3, 0.1, 0, 0, 1, 0, 0, 0, 1, 1, 1⟩ : Shape ℝ)
      ⟨4, 0.1, 0.15, 0, 1, 0, 0, 0, 1, 1, 1⟩ = 0.15 := by
    unfold centerDist
    rw [Real.sqrt_eq_iff_mul_self_eq] <;> norm_num
  exact collisionScan_pair ⟨3, 0.1, 0, 0, 1, 0, 0, 0, 1, 1, 1⟩ ⟨4, 0.1, 0.15, 0, 1, 0, 0, 0, 1, 1, 1⟩
    (by rw [hd]; norm_num) (by rw [hd]; norm_num)

theorem resolvePair_velocity (sqrt : α → α) (a b a' b' : Shape α)
    (h : resolvePair sqrt a b = some (a', b')) :
    (velocity a' = velocity b ∧ velocity b' = velocity a) ∨ (a' = a ∧ b' = b) := by
  rw [resolvePair_dist] at h
  split_ifs at h with h1 h2
  · simp only [Option.some.injEq, Prod.mk.injEq] at h
    obtain ⟨rfl, rfl⟩ := h
    exact Or.inl ⟨rfl, rfl⟩
  · simp only [Option.some.injEq, Prod.mk.injEq] at h
    exact Or.inr ⟨h.1.symm, h.2.symm⟩

theorem set_getElem?_self {β : Type} : ∀ (l : List β) (i : ℕ) (x : β), l[i]? = some x → l.set i x = l
  | [], _, _, h => by simp at h
  | c :: t, 0, x, h => by
    simp only [List.getElem?_cons_zero, Option.some.injEq] at h
    simp [h]
  | c :: t, i + 1, x, h => by
    simp only [List.getElem?_cons_succ] at h
    simp [set_getElem?_self t i x h]

theorem cons_set_perm {β : Type} : ∀ (t : List β) (j : ℕ) (h y : β), t[j]? = some y →
    (y :: t.set j h).Perm (h :: t)
  | [], _, _, _, hy => by simp at hy
  | c :: t, 0, h, y, hy => by
    simp only [List.getElem?_cons_zero, Option.some.injEq] at hy
    subst hy
    simpa using List.Perm.swap h c t
  | c :: t, j + 1, h, y, hy => by
    simp only [List.getElem?_cons_succ] at hy
    have ih := cons_set_perm t j h y hy
    simp only [List.set_cons_succ]
    exact ((List.Perm.swap c y _).trans (ih.cons c)).trans (List.Perm.swap h c t)

/-- Exchanging the entries at two distinct positions of a list permutes it. -/
theorem set_set_perm {β : Type} : ∀ (l : List β) (i j : ℕ) (x y : β), i ≠ j →
    l[i]? = some x → l[j]? = some y → ((l.set i y).set j x).Perm l
  | [], _, _, _, _, _, hx, _ => by simp at hx
  | c :: t, 0, 0, _, _, hij, _, _ => absurd rfl hij
  | c :: t, 0, j + 1, x, y, _, hx, hy => by
    simp only [List.getElem?_cons_zero, Option.some.injEq] at hx
    simp only [List.getElem?_cons_succ] at hy
    subst hx
    simpa using cons_set_perm t j c y hy
  | c :: t, i + 1, 0, x, y, _, hx, hy => by
    simp only [List.getElem?_cons_zero, Option.some.injEq] at hy
    simp only [List.getElem?_cons_succ] at hx
    subst hy
    simpa using cons_set_perm t i c x hx
  | c :: t, i + 1, j + 1, x, y, hij, hx, hy => by
    simp only [List.getElem?_cons_succ] at hx hy
    simpa using (set_set_perm t i j x y (fun h => hij (by rw [h])) hx hy).cons c

theorem collide_velocity_perm (sqrt : α → α) (i j : ℕ) (shapes shapes' : List (Shape α))
    (hij : i ≠ j) (h : collide sqrt i j shapes = some shapes') :
    (shapes'.map velocity).Perm (shapes.map velocity) := by
  unfold collide at h
  cases ha : shapes[i]? with
  | none => 
    rw [ha] at h
    simp only [Option.some.injEq] at h
    rw [← h]
  | some a =>
    cases hb : shapes[j]? with
    | none =>
      rw [ha, hb] at h
      simp only [Option.some.injEq] at h
      rw [← h]
    | some b =>
      rw [ha, hb] at h
      simp only at h
      cases hr : resolvePair sqrt a b with
      | none => rw [hr] at h; exact Option.noConfusion h
      | some p =>
        obtain ⟨a', b'⟩ := p
        rw [hr] at h
        simp only [Option.some.injEq] at h
        subst h
        rcases resolvePair_velocity sqrt a b a' b' hr with ⟨hva, hvb⟩ | ⟨rfl, rfl⟩
        · rw [List.map_set, List.map_set, hva, hvb]
          apply set_set_perm _ i j (velocity a) (velocity b) hij
          · simp [ha]
          · simp [hb]
        · have hb' : (shapes.set i a')[j]? = some b' := by
            rw [List.getElem?_set_ne hij]; exact hb
          rw [set_getElem?_self _ j b' hb', set_getElem?_self _ i a' ha]

theorem scanFrom_velocity_perm (sqrt : α → α) (i : ℕ) :
    ∀ (js : List ℕ) (shapes shapes' : List (Shape α)), scanFrom sqrt i js shapes = some shapes' →
      (shapes'.map velocity).Perm (shapes.map velocity)
  | [], shapes, shapes', h => by
    simp only [scanFrom, Option.some.injEq] at h
    rw [h]
  | j :: js, shapes, shapes', h => by
    simp only [scanFrom] at h
    split_ifs at h with hji
    · exact scanFrom_velocity_perm sqrt i js shapes shapes' h
    · cases hc : collide sqrt i j shapes with
      | none => rw [hc] at h; exact Option.noConfusion h
      | some mid =>
        rw [hc] at h
        exact (scanFrom_velocity_perm sqrt i js mid shapes' h).trans
          (collide_velocity_perm sqrt i j shapes mid (Ne.symm hji) hc)

/-- C6. Collision resolution only reassigns velocities: for every store and every index,
whenever the collision scan run for that shape returns a store, the multiset of the velocity
vectors `(vx, vy, vz)` of all shapes is the one it was before the scan. The first half is the
scan of `main.cpp`, the second half the scan of `parallel.cpp`. -/
theorem collisionScan_velocities (sqrt : α → α) (i : ℕ) (shapes : List (Shape α))
    (pshapes : List (Parallel.Shape α)) (RAND_MAX : ℕ) (rand : ℕ → ℕ) (k : ℕ) :
    (∀ shapes', collisionScan sqrt i shapes = some shapes' →
      Multiset.ofList (shapes'.map velocity) = Multiset.ofList (shapes.map velocity)) ∧
    (∀ pshapes' k', Parallel.collisionScan RAND_MAX rand sqrt i pshapes k = some (pshapes', k') →
      Multiset.ofList (pshapes'.map Parallel.velocity) =
        Multiset.ofList (pshapes.map Parallel.velocity)) := by
  constructor
  · intro shapes' h
    exact Multiset.coe_eq_coe.2 (scanFrom_velocity_perm sqrt i _ shapes shapes' h)
  · intro pshapes' k' hp
    obtain ⟨ss', hs, ha⟩ := collisionScan_some_agrees RAND_MAX rand sqrt i pshapes pshapes'
      (pshapes.map Parallel.Shape.toBasic) k k' (map_toBasic_agrees pshapes) hp
    rw [agrees_velocity pshapes' ss' ha,
      agrees_velocity pshapes _ (map_toBasic_agrees pshapes)]
    exact Multiset.coe_eq_coe.2 (scanFrom_velocity_perm sqrt i _ _ ss' hs)

/-- Witness of C6: two overlapping shapes of radius `0.1`, centres `0.15` apart, with the
velocity vectors `(0.1, 0, 0)` and `(-0.2, 0.05, 0)`, which the scan exchanges; in
`parallel.cpp` the draw `p = 2000 / 32767` also sets a new rotation speed. -/
theorem collisionScan_velocities_witness :
    (collisionScan Real.sqrt 0
        [(⟨3, 0.1, 0, 0, 1, 0.1, 0, 0, 1, 1, 1⟩ : Shape ℝ),
          ⟨4, 0.1, 0.15, 0, 1, -0.2, 0.05, 0, 1, 1, 1⟩]
      = some [⟨3, 0.1, -0.025, 0, 1, -0.2, 0.05, 0, 1, 1, 1⟩,
          ⟨4, 0.1, 0.175, 0, 1, 0.1, 0, 0, 1, 1, 1⟩] ∧
    Multiset.ofList ([(⟨3, 0.1, -0.025, 0, 1, -0.2, 0.05, 0, 1, 1, 1⟩ : Shape ℝ),
          ⟨4, 0.1, 0.175, 0, 1, 0.1, 0, 0, 1, 1, 1⟩].map velocity) =
      Multiset.ofList ([(⟨3, 0.1, 0, 0, 1, 0.1, 0, 0, 1, 1, 1⟩ : Shape ℝ),
          ⟨4, 0.1, 0.15, 0, 1, -0.2, 0.05, 0, 1, 1, 1⟩].map velocity)) ∧
    (Parallel.collisionScan 32767 (fun _ => 2000) Real.sqrt 0
        [(⟨3, 0.1, 0, 0, 1, 0.1, 0, 0, 0, 0, 0, 0, 1, 1, 1⟩ : Parallel.Shape ℝ),
          ⟨4, 0.1, 0.15, 0, 1, -0.2, 0.05, 0, 0, 0, 0, 0, 1, 1, 1⟩] 0
      = some ([⟨3, 0.1, -0.025, 0, 1, -0.2, 0.05, 0, 0, 0, 0, 70 * (2000 / 32767), 1, 1, 1⟩,
          ⟨4, 0.1, 0.175, 0, 1, 0.1, 0, 0, 0, 0, 0, 0, 1, 1, 1⟩], 2) ∧
    Multiset.ofList
        ([(⟨3, 0.1, -0.025, 0, 1, -0.2, 0.05, 0, 0, 0, 0, 70 * (2000 / 32767), 1, 1, 1⟩ :
            Parallel.Shape ℝ),
          ⟨4, 0.1, 0.175, 0, 1, 0.1, 0, 0, 0, 0, 0, 0, 1, 1, 1⟩].map Parallel.velocity) =
      Multiset.ofList
        ([(⟨3, 0.1, 0, 0, 1, 0.1, 0, 0, 0, 0, 0, 0, 1, 1, 1⟩ : Parallel.Shape ℝ),
          ⟨4, 0.1, 0.15, 0, 1, -0.2, 0.05, 0, 0, 0, 0, 0, 1, 1, 1⟩].map Parallel.velocity)) := by
  have hs : Real.sqrt (9 / 400) = 3 / 20 := by
    rw [Real.sqrt_eq_iff_mul_self_eq] <;> norm_num
  have h : collisionScan Real.sqrt 0
        [(⟨3, 0.1, 0, 0, 1, 0.1, 0, 0, 1, 1, 1⟩ : Shape ℝ),
          ⟨4, 0.1, 0.15, 0, 1, -0.2, 0.05, 0, 1, 1, 1⟩]
      = some [⟨3, 0.1, -0.025, 0, 1, -0.2, 0.05, 0, 1, 1, 1⟩,
          ⟨4, 0.1, 0.175, 0, 1, 0.1, 0, 0, 1, 1, 1⟩] := by
    norm_num [collisionScan, List.range_succ, scanFrom, collide, resolvePair, hs]
  have hp : Parallel.collisionScan 32767 (fun _ => 2000) Real.sqrt 0
        [(⟨3, 0.1, 0, 0, 1, 0.1, 0, 0, 0, 0, 0, 0, 1, 1, 1⟩ : Parallel.Shape ℝ),
          ⟨4, 0.1, 0.15, 0, 1, -0.2, 0.05, 0, 0, 0, 0, 0, 1, 1, 1⟩] 0
      = some ([⟨3, 0.1, -0.025, 0, 1, -0.2, 0.05, 0, 0, 0, 0, 70 * (2000 / 32767), 1, 1, 1⟩,
          ⟨4, 0.1, 0.175, 0, 1, 0.1, 0, 0, 0, 0, 0, 0, 1, 1, 1⟩], 2) := by
    norm_num [Parallel.collisionScan, List.range_succ, Parallel.scanFrom, Parallel.collide,
      Parallel.resolvePair, Parallel.Shape.changeColor, hs]
  have hw := collisionScan_velocities Real.sqrt 0
    [(⟨3, 0.1, 0, 0, 1, 0.1, 0, 0, 1, 1, 1⟩ : Shape ℝ),
      ⟨4, 0.1, 0.15, 0, 1, -0.2, 0.05, 0, 1, 1, 1⟩]
    [(⟨3, 0.1, 0, 0, 1, 0.1, 0, 0, 0, 0, 0, 0, 1, 1, 1⟩ : Parallel.Shape ℝ),
      ⟨4, 0.1, 0.15, 0, 1, -0.2, 0.05, 0, 0, 0, 0, 0, 1, 1, 1⟩] 32767 (fun _ => 2000) 0
  exact ⟨⟨h, hw.1 _ h⟩, ⟨hp, hw.2 _ _ hp⟩⟩

/-! ## The serial tick -/

theorem boundaryStep_radius (shape shape' : Shape α) (dt : α)
    (h : boundaryStep shape dt = some shape') : shape'.radius = shape.radius := by
  simp only [boundaryStep, Option.map_eq_some'] at h
  obtain ⟨s1, hs1, rfl⟩ := h
  rw [clampDepth_radius, clampLateral_radius (integrate shape dt) s1 hs1]
  rfl

theorem centerDist_comm (sqrt : α → α) (a b : Shape α) :
    centerDist sqrt a b = centerDist sqrt b a := by
  unfold centerDist
  congr 1
  ring

/-- Whatever the loop body returns, the two shapes keep their radii and their centres are at
least the sum of the radii apart. -/
theorem resolvePair_apart (a b a' b' : Shape ℝ) (h : resolvePair Real.sqrt a b = some (a', b')) :
    a'.radius = a.radius ∧ b'.radius = b.radius ∧
      a.radius + b.radius ≤ centerDist Real.sqrt a' b' := by
  by_cases h1 : centerDist Real.sqrt a b < a.radius + b.radius
  · have h0 : 0 < centerDist Real.sqrt a b := by
      rcases (centerDist_nonneg a b).lt_or_eq with hlt | heq
      · exact hlt
      · have hn := (resolvePair_eq_none Real.sqrt a b).2 ⟨h1, heq.symm⟩
        rw [hn] at h
        exact Option.noConfusion h
    obtain ⟨a2, b2, hres, hra, hrb, hd, _, _⟩ := resolvePair_separated a b h0 h1
    rw [hres] at h
    simp only [Option.some.injEq, Prod.mk.injEq] at h
    obtain ⟨rfl, rfl⟩ := h
    exact ⟨hra, hrb, hd.ge⟩
  · rw [resolvePair_dist, if_neg h1] at h
    simp only [Option.some.injEq, Prod.mk.injEq] at h
    obtain ⟨rfl, rfl⟩ := h
    exact ⟨rfl, rfl, not_lt.1 h1⟩

theorem updateShape_two_zero (sqrt : α → α) (A B : Shape α) (dt : α) :
    updateShape sqrt [A, B] 0 dt =
      (boundaryStep A dt).bind fun A1 => (resolvePair sqrt A1 B).map fun p => [p.1, p.2] := by
  rcases hA : boundaryStep A dt with _ | A1
  · simp [updateShape, hA]
  · rcases hp : resolvePair sqrt A1 B with _ | ⟨a', b'⟩ <;>
      simp [updateShape, hA, collisionScan, List.range_succ, scanFrom, collide, hp]

theorem updateShape_two_one (sqrt : α → α) (A B : Shape α) (dt : α) :
    updateShape sqrt [A, B] 1 dt =
      (boundaryStep B dt).bind fun B1 => (resolvePair sqrt B1 A).map fun p => [p.2, p.1] := by
  rcases hB : boundaryStep B dt with _ | B1
  · simp [updateShape, hB]
  · rcases hp : resolvePair sqrt B1 A with _ | ⟨b', a'⟩ <;>
      simp [updateShape, hB, collisionScan, List.range_succ, scanFrom, collide, hp]

/-- C3, amended. For a store of exactly two shapes and every `dt`, whenever the serial tick
completes (no division by zero), the two shapes keep their radii and their centres are at
least `radiusA + radiusB` apart. -/
theorem tick_two (A B : Shape ℝ) (dt : ℝ) (shapes' : List (Shape ℝ))
    (h : tick Real.sqrt dt [A, B] = some shapes') :
    ∃ A' B', shapes' = [A', B'] ∧ A'.radius = A.radius ∧ B'.radius = B.radius ∧
      A'.radius + B'.radius ≤ centerDist Real.sqrt A' B' := by
  simp only [tick, List.length_cons, List.length_nil, List.range_succ, List.range_zero,
    List.nil_append, List.cons_append, tickFrom, Nat.zero_add] at h
  rw [updateShape_two_zero] at h
  cases hA : boundaryStep A dt with
  | none => rw [hA] at h; simp at h
  | some A1 =>
    rw [hA] at h
    simp only [Option.some_bind] at h
    cases hp : resolvePair Real.sqrt A1 B with
    | none => rw [hp] at h; simp at h
    | some p =>
      obtain ⟨A2, B2⟩ := p
      rw [hp] at h
      simp only [Option.map_some'] at h
      rw [updateShape_two_one] at h
      cases hB : boundaryStep B2 dt with
      | none => rw [hB] at h; simp at h
      | some B3 =>
        rw [hB] at h
        simp only [Option.some_bind] at h
        cases hq : resolvePair Real.sqrt B3 A2 with
        | none => rw [hq] at h; simp at h
        | some q =>
          obtain ⟨B4, A4⟩ := q
          rw [hq] at h
          simp only [Option.map_some', Option.some.injEq] at h
          obtain ⟨hrB4, hrA4, hd⟩ := resolvePair_apart B3 A2 B4 A4 hq
          obtain ⟨hrA2, hrB2, _⟩ := resolvePair_apart A1 B A2 B2 hp
          have hrA1 := boundaryStep_radius A A1 dt hA
          have hrB3 := boundaryStep_radius B2 B3 dt hB
          refine ⟨A4, B4, h.symm, ?_, ?_, ?_⟩
          · rw [hrA4, hrA2, hrA1]
          · rw [hrB4, hrB3, hrB2]
          · rw [centerDist_comm, hrA4, hrB4]
            linarith

/-- Witness of the amended C3: two shapes of radius `0.1` at rest, centres `0.15` apart. -/
theorem tick_two_witness :
    tick Real.sqrt 0.5
        [(⟨3, 0.1, 0, 0, 1, 0, 0, 0, 1, 1, 1⟩ : Shape ℝ), ⟨4, 0.1, 0.15, 0, 1, 0, 0, 0, 1, 1, 1⟩]
      = some [⟨3, 0.1, -0.025, 0, 1, 0, 0, 0, 1, 1, 1⟩, ⟨4, 0.1, 0.175, 0, 1, 0, 0, 0, 1, 1, 1⟩] ∧
    ∃ A' B', [(⟨3, 0.1, -0.025, 0, 1, 0, 0, 0, 1, 1, 1⟩ : Shape ℝ),
        ⟨4, 0.1, 0.175, 0, 1, 0, 0, 0, 1, 1, 1⟩] = [A', B'] ∧
      A'.radius = 0.1 ∧ B'.radius = 0.1 ∧ A'.radius + B'.radius ≤ centerDist Real.sqrt A' B' := by
  have hs : Real.sqrt (9 / 400) = 3 / 20 := by
    rw [Real.sqrt_eq_iff_mul_self_eq] <;> norm_num
  have hs2 : Real.sqrt (1 / 25) = 1 / 5 := by
    rw [Real.sqrt_eq_iff_mul_self_eq] <;> norm_num
  have h : tick Real.sqrt 0.5
        [(⟨3, 0.1, 0, 0, 1, 0, 0, 0, 1, 1, 1⟩ : Shape ℝ), ⟨4, 0.1, 0.15, 0, 1, 0, 0, 0, 1, 1, 1⟩]
      = some [⟨3, 0.1, -0.025, 0, 1, 0, 0, 0, 1, 1, 1⟩, ⟨4, 0.1, 0.175, 0, 1, 0, 0, 0, 1, 1, 1⟩] := by
    norm_num [tick, tickFrom, updateShape, boundaryStep, integrate, clampLateral, clampDepth,
      NEAR_PLANE, FAR_PLANE, collisionScan, List.range_succ, scanFrom, collide, resolvePair, hs, hs2]
  exact ⟨h, tick_two _ _ _ _ h⟩

/-- C3, as stated, fails for three shapes of radius `0.1` at rest on a line, at `x = -0.21`,
`x = 0` and `x = 0.15` (positive radii, pairwise distinct centres, `dt = 0.5`): the update of
the second shape separates it from the third and thereby pushes it `0.025` towards the first
one, which by then has been scanned; after the tick the first two centres are `0.185` apart,
less than `0.2`. -/
theorem tick_overlap_counterexample :
    ((0 : ℝ) < 0.1 ∧ (0 : ℝ) ≤ 0.5 ∧ (-0.21 : ℝ) ≠ 0 ∧ (-0.21 : ℝ) ≠ 0.15 ∧ (0 : ℝ) ≠ 0.15) ∧
    ∃ A B C, tick Real.sqrt 0.5
        [(⟨3, 0.1, -0.21, 0, 1, 0, 0, 0, 1, 1, 1⟩ : Shape ℝ), ⟨4, 0.1, 0, 0, 1, 0, 0, 0, 1, 1, 1⟩,
          ⟨5, 0.1, 0.15, 0, 1, 0, 0, 0, 1, 1, 1⟩] = some [A, B, C] ∧
      centerDist Real.sqrt A B < A.radius + B.radius := by
  have hs : Real.sqrt (9 / 400) = 3 / 20 := by
    rw [Real.sqrt_eq_iff_mul_self_eq] <;> norm_num
  have hs2 : Real.sqrt (1 / 25) = 1 / 5 := by
    rw [Real.sqrt_eq_iff_mul_self_eq] <;> norm_num
  have hs3 : Real.sqrt (441 / 10000) = 21 / 100 := by
    rw [Real.sqrt_eq_iff_mul_self_eq] <;> norm_num
  have hs4 : Real.sqrt (81 / 625) = 9 / 25 := by
    rw [Real.sqrt_eq_iff_mul_self_eq] <;> norm_num
  have hs5 : Real.sqrt (5929 / 40000) = 77 / 200 := by
    rw [Real.sqrt_eq_iff_mul_self_eq] <;> norm_num
  have hs6 : Real.sqrt (1369 / 40000) = 37 / 200 := by
    rw [Real.sqrt_eq_iff_mul_self_eq] <;> norm_num
  refine ⟨by norm_num, ⟨3, 0.1, -0.21, 0, 1, 0, 0, 0, 1, 1, 1⟩,
    ⟨4, 0.1, -0.025, 0, 1, 0, 0, 0, 1, 1, 1⟩, ⟨5, 0.1, 0.175, 0, 1, 0, 0, 0, 1, 1, 1⟩, ?_, ?_⟩
  · norm_num [tick, tickFrom, updateShape, boundaryStep, integrate, clampLateral, clampDepth,
      NEAR_PLANE, FAR_PLANE, collisionScan, List.range_succ, scanFrom, collide, resolvePair,
      hs, hs2, hs3, hs4, hs5]
  · norm_num [centerDist, hs6]

/-! ## The depth invariant across a complete update -/

theorem collide_noOverlap (sqrt : α → α) (i j : ℕ) (shapes : List (Shape α)) (a : Shape α)
    (ha : shapes[i]? = some a)
    (hno : ∀ b, shapes[j]? = some b → a.radius + b.radius ≤ centerDist sqrt a b) :
    collide sqrt i j shapes = some shapes := by
  rcases hb : shapes[j]? with _ | b
  · simp [collide, ha, hb]
  · have hr : resolvePair sqrt a b = some (a, b) := by
      rw [resolvePair_dist, if_neg (not_lt.2 (hno b hb))]
    have hb' : (shapes.set i a)[j]? = some b := by
      rw [set_getElem?_self shapes i a ha]; exact hb
    simp only [collide, ha, hb, hr]
    rw [set_getElem?_self _ j b hb', set_getElem?_self shapes i a ha]

theorem scanFrom_noOverlap (sqrt : α → α) (i : ℕ) (shapes : List (Shape α)) (a : Shape α)
    (ha : shapes[i]? = some a) :
    ∀ js : List ℕ,
      (∀ j ∈ js, j ≠ i → ∀ b, shapes[j]? = some b → a.radius + b.radius ≤ centerDist sqrt a b) →
      scanFrom sqrt i js shapes = some shapes
  | [], _ => rfl
  | j :: js, hno => by
    have ih := scanFrom_noOverlap sqrt i shapes a ha js
      (fun k hk => hno k (List.mem_cons_of_mem j hk))
    simp only [scanFrom]
    split_ifs with hji
    · exact ih
    · rw [collide_noOverlap sqrt i j shapes a ha (hno j (List.mem_cons_self j js) hji)]
      exact ih

/-- In a store in which every shape satisfies the depth invariant with a radius in
`[0.05, 0.15]`, a complete `updateShape` call on a shape that, after its boundary step,
overlaps no other shape (the collision scan resolves nothing) returns the store with that one
shape replaced, and every shape of the returned store satisfies the depth invariant. -/
theorem updateShape_depth_noCollision (sqrt : α → α) (shapes : List (Shape α)) (i : ℕ)
    (dt : α) (shape shape1 : Shape α)
    (hdepth : ∀ s ∈ shapes, DepthInRange s)
    (hradius : ∀ s ∈ shapes, 0.05 ≤ s.radius ∧ s.radius ≤ 0.15)
    (_hdt : 0 ≤ dt)
    (hi : shapes[i]? = some shape)
    (hstep : boundaryStep shape dt = some shape1)
    (hno : ∀ j other, j ≠ i → shapes[j]? = some other →
      shape1.radius + other.radius ≤ centerDist sqrt shape1 other) :
    updateShape sqrt shapes i dt = some (shapes.set i shape1) ∧
      ∀ s ∈ shapes.set i shape1, DepthInRange s := by
  have hilt : i < shapes.length := by
    rcases Nat.lt_or_ge i shapes.length with h | h
    · exact h
    · rw [List.getElem?_eq_none h] at hi
      exact Option.noConfusion hi
  have hmem : shape ∈ shapes := List.mem_iff_getElem?.2 ⟨i, hi⟩
  constructor
  · simp only [updateShape, hi, hstep, collisionScan]
    apply scanFrom_noOverlap sqrt i _ shape1
    · simp [hilt]
    · intro j _ hji b hb
      rw [List.getElem?_set_ne (Ne.symm hji)] at hb
      exact hno j b hji hb
  · intro s hs
    rcases List.mem_or_eq_of_mem_set hs with h | h
    · exact hdepth s h
    · subst h
      simp only [boundaryStep, Option.map_eq_some'] at hstep
      obtain ⟨s1, hs1, rfl⟩ := hstep
      apply clampDepth_inRange
      rw [clampLateral_radius (integrate shape dt) s1 hs1]
      have := (hradius shape hmem).2
      show shape.radius ≤ 4.95
      norm_num at this ⊢
      linarith

theorem resolvePair_radius (sqrt : α → α) (a b a' b' : Shape α)
    (h : resolvePair sqrt a b = some (a', b')) :
    a'.radius = a.radius ∧ b'.radius = b.radius := by
  rw [resolvePair_dist] at h
  split_ifs at h with h1 h2
  · simp only [Option.some.injEq, Prod.mk.injEq] at h
    obtain ⟨rfl, rfl⟩ := h
    exact ⟨rfl, rfl⟩
  · simp only [Option.some.injEq, Prod.mk.injEq] at h
    obtain ⟨rfl, rfl⟩ := h
    exact ⟨rfl, rfl⟩

/-- A resolved pair at equal depth stays at that depth. -/
theorem resolvePair_equalDepth (sqrt : α → α) (a b a' b' : Shape α) (hz : a.z = b.z)
    (h : resolvePair sqrt a b = some (a', b')) : a'.z = a.z ∧ b'.z = b.z := by
  rw [resolvePair_dist] at h
  split_ifs at h with h1 h2
  · simp only [Option.some.injEq, Prod.mk.injEq] at h
    obtain ⟨rfl, rfl⟩ := h
    simp [hz]
  · simp only [Option.some.injEq, Prod.mk.injEq] at h
    obtain ⟨rfl, rfl⟩ := h
    exact ⟨rfl, rfl⟩

theorem abs_dz_le_centerDist (a b : Shape ℝ) : |a.z - b.z| ≤ centerDist Real.sqrt a b := by
  unfold centerDist
  apply Real.abs_le_sqrt
  nlinarith [mul_self_nonneg (a.x - b.x), mul_self_nonneg (a.y - b.y)]

/-- One loop iteration moves each of the two centres in depth by at most half the sum of the
radii, hence by at most a common bound `ρ` of the two radii. -/
theorem resolvePair_depthShift (a b a' b' : Shape ℝ) (ρ : ℝ) (hρ : 0 ≤ ρ)
    (ha : a.radius ≤ ρ) (hb : b.radius ≤ ρ)
    (h : resolvePair Real.sqrt a b = some (a', b')) :
    |a'.z - a.z| ≤ ρ ∧ |b'.z - b.z| ≤ ρ := by
  have hd0 := centerDist_nonneg a b
  have hdz := abs_dz_le_centerDist a b
  rw [resolvePair_dist] at h
  split_ifs at h with h1 h2
  · simp only [Option.some.injEq, Prod.mk.injEq] at h
    obtain ⟨rfl, rfl⟩ := h
    have hdpos : 0 < centerDist Real.sqrt a b := lt_of_le_of_ne hd0 (Ne.symm h2)
    generalize centerDist Real.sqrt a b = d at *
    have key : |0.5 * (d - a.radius - b.radius) * (a.z - b.z) / d| ≤ ρ := by
      rw [abs_div, abs_mul, abs_of_pos hdpos, div_le_iff₀ hdpos]
      have h3 : |0.5 * (d - a.radius - b.radius)| ≤ ρ := by
        rw [abs_le]; constructor <;> norm_num <;> linarith
      exact mul_le_mul h3 hdz (abs_nonneg _) hρ
    constructor
    · simpa [abs_neg] using key
    · simpa using key
  · simp only [Option.some.injEq, Prod.mk.injEq] at h
    obtain ⟨rfl, rfl⟩ := h
    simp [hρ]

/-- What one loop iteration does to the store: every shape keeps its place and its radius, the
shapes other than the two compared ones are left as they are, and no centre moves in depth
by more than a common bound `ρ` of the radii. -/
theorem collide_frame (i j : ℕ) (S S1 : List (Shape ℝ)) (ρ : ℝ) (hρ : 0 ≤ ρ) (hij : i ≠ j)
    (hrad : ∀ (k : ℕ) (s : Shape ℝ), S[k]? = some s → s.radius ≤ ρ)
    (h : collide Real.sqrt i j S = some S1) :
    S1.length = S.length ∧
    ∀ k s1, S1[k]? = some s1 → ∃ s, S[k]? = some s ∧ s1.radius = s.radius ∧
      (k ≠ i → k ≠ j → s1 = s) ∧ |s1.z - s.z| ≤ ρ := by
  have triv : ∀ k s1, S[k]? = some s1 → ∃ s, S[k]? = some s ∧ s1.radius = s.radius ∧
      (k ≠ i → k ≠ j → s1 = s) ∧ |s1.z - s.z| ≤ ρ :=
    fun k s1 hk => ⟨s1, hk, rfl, fun _ _ => rfl, by simpa using hρ⟩
  unfold collide at h
  rcases ha : S[i]? with _ | a
  · rw [ha] at h
    simp only [Option.some.injEq] at h
    subst h
    exact ⟨rfl, triv⟩
  rcases hb : S[j]? with _ | b
  · rw [ha, hb] at h
    simp only [Option.some.injEq] at h
    subst h
    exact ⟨rfl, triv⟩
  rw [ha, hb] at h
  simp only at h
  rcases hr : resolvePair Real.sqrt a b with _ | ⟨a', b'⟩
  · rw [hr] at h; exact Option.noConfusion h
  rw [hr] at h
  simp only [Option.some.injEq] at h
  subst h
  obtain ⟨hra, hrb⟩ := resolvePair_radius Real.sqrt a b a' b' hr
  obtain ⟨hza, hzb⟩ := resolvePair_depthShift a b a' b' ρ hρ (hrad i a ha) (hrad j b hb) hr
  refine ⟨by simp, ?_⟩
  intro k s1 hk
  by_cases hkj : k = j
  · subst hkj
    rw [List.getElem?_set] at hk
    simp only [if_true, List.length_set] at hk
    split_ifs at hk with hlt
    · simp only [Option.some.injEq] at hk
      subst hk
      exact ⟨b, hb, hrb, fun _ hne => absurd rfl hne, hzb⟩
  · rw [List.getElem?_set_ne (Ne.symm hkj)] at hk
    by_cases hki : k = i
    · subst hki
      rw [List.getElem?_set] at hk
      simp only [if_true] at hk
      split_ifs at hk with hlt
      · simp only [Option.some.injEq] at hk
        subst hk
        exact ⟨a, ha, hra, fun hne _ => absurd rfl hne, hza⟩
    · rw [List.getElem?_set_ne (Ne.symm hki)] at hk
      exact triv k s1 hk

/-- What the collision scan over the indices `js` does to the store: every shape keeps its
place and its radius, a shape that is neither the updated one nor visited is left as it is, a
shape other than the updated one moves in depth by at most `ρ`, and the updated one by at most
`ρ` for every index visited. -/
theorem scanFrom_frame (i : ℕ) (ρ : ℝ) (hρ : 0 ≤ ρ) :
    ∀ (js : List ℕ) (S S' : List (Shape ℝ)), js.Nodup →
      (∀ (k : ℕ) (s : Shape ℝ), S[k]? = some s → s.radius ≤ ρ) →
      scanFrom Real.sqrt i js S = some S' →
      S'.length = S.length ∧
      ∀ k s', S'[k]? = some s' → ∃ s, S[k]? = some s ∧ s'.radius = s.radius ∧
        (k ≠ i → k ∉ js → s' = s) ∧ (k ≠ i → |s'.z - s.z| ≤ ρ) ∧
        (k = i → |s'.z - s.z| ≤ ρ * (js.countP fun j => decide (j ≠ i))) := by
  intro js
  induction js with
  | nil =>
    intro S S' _ _ h
    simp only [scanFrom, Option.some.injEq] at h
    subst h
    refine ⟨rfl, fun k s' hk => ⟨s', hk, rfl, fun _ _ => rfl, fun _ => by simpa using hρ,
      fun _ => by simp⟩⟩
  | cons j rest ih =>
    intro S S' hnd hrad h
    have hndr : rest.Nodup := (List.nodup_cons.1 hnd).2
    have hjr : j ∉ rest := (List.nodup_cons.1 hnd).1
    simp only [scanFrom] at h
    by_cases hji : j = i
    · rw [if_pos hji] at h
      obtain ⟨hlen, hall⟩ := ih S S' hndr hrad h
      refine ⟨hlen, fun k s' hk => ?_⟩
      obtain ⟨s, hs, hr, hf, hb, hc⟩ := hall k s' hk
      refine ⟨s, hs, hr, fun hki hkn => hf hki (fun hm => hkn (List.mem_cons_of_mem j hm)),
        hb, fun hki => ?_⟩
      have := hc hki
      simpa [List.countP_cons, hji] using this
    · rw [if_neg hji] at h
      rcases hc1 : collide Real.sqrt i j S with _ | S1
      · rw [hc1] at h; exact Option.noConfusion h
      rw [hc1] at h
      simp only at h
      obtain ⟨hlen1, hall1⟩ := collide_frame i j S S1 ρ hρ (Ne.symm hji) hrad hc1
      have hrad1 : ∀ (k : ℕ) (s : Shape ℝ), S1[k]? = some s → s.radius ≤ ρ := by
        intro k s1 hk
        obtain ⟨s, hs, hr, _⟩ := hall1 k s1 hk
        rw [hr]
        exact hrad k s hs
      obtain ⟨hlen, hall⟩ := ih S1 S' hndr hrad1 h
      refine ⟨hlen.trans hlen1, fun k s' hk => ?_⟩
      obtain ⟨s1, hs1, hr, hf, hb, hc⟩ := hall k s' hk
      obtain ⟨s, hs, hr0, hf0, hb0⟩ := hall1 k s1 hs1
      refine ⟨s, hs, hr.trans hr0, ?_, ?_, ?_⟩
      · intro hki hkn
        have hkj : k ≠ j := fun e => hkn (by rw [e]; exact List.mem_cons_self j rest)
        have hkr : k ∉ rest := fun hm => hkn (List.mem_cons_of_mem j hm)
        rw [hf hki hkr, hf0 hki hkj]
      · intro hki
        by_cases hkj : k = j
        · have hkr : k ∉ rest := by rw [hkj]; exact hjr
          rw [hf hki hkr]
          exact hb0
        · rw [← hf0 hki hkj]
          exact hb hki
      · intro hki
        have h1 := hc hki
        have hcount : ((j :: rest).countP fun j => decide (j ≠ i)) =
            (rest.countP fun j => decide (j ≠ i)) + 1 := by
          simp [List.countP_cons, hji]
        rw [hcount]
        push_cast
        have habs : |s'.z - s.z| ≤ |s'.z - s1.z| + |s1.z - s.z| := by
          have := abs_add (s'.z - s1.z) (s1.z - s.z)
          simpa using this
        linarith

theorem countP_ne_range (i : ℕ) : ∀ n : ℕ, i < n →
    ((List.range n).countP fun j => decide (j ≠ i)) = n - 1 := by
  have key : ∀ n : ℕ, ((List.range n).countP fun j => decide (j ≠ i)) =
      if i < n then n - 1 else n := by
    intro n
    induction n with
    | zero => simp
    | succ n ih =>
      rw [List.range_succ, List.countP_append, ih]
      by_cases h1 : i < n
      · have h2 : n ≠ i := by omega
        have h3 : i < n + 1 := by omega
        simp only [if_pos h1, if_pos h3, List.countP_cons, List.countP_nil, h2, ne_eq,
          not_false_eq_true, decide_True, if_true]
        omega
      · by_cases h2 : n = i
        · simp [h2, List.countP_cons]
        · have h3 : ¬ i < n + 1 := by omega
          simp [h1, h2, h3, List.countP_cons]
  intro n hn
  rw [key n, if_pos hn]

/-- One loop iteration on a store whose shapes all lie at the depth `z0` leaves them there. -/
theorem collide_sameDepth (sqrt : α → α) (i j : ℕ) (S S1 : List (Shape α)) (z0 : α)
    (hz : ∀ (k : ℕ) (s : Shape α), S[k]? = some s → s.z = z0)
    (h : collide sqrt i j S = some S1) :
    ∀ (k : ℕ) (s : Shape α), S1[k]? = some s → s.z = z0 := by
  unfold collide at h
  rcases ha : S[i]? with _ | a
  · rw [ha] at h
    simp only [Option.some.injEq] at h
    subst h
    exact hz
  rcases hb : S[j]? with _ | b
  · rw [ha, hb] at h
    simp only [Option.some.injEq] at h
    subst h
    exact hz
  rw [ha, hb] at h
  simp only at h
  rcases hr : resolvePair sqrt a b with _ | ⟨a', b'⟩
  · rw [hr] at h; exact Option.noConfusion h
  rw [hr] at h
  simp only [Option.some.injEq] at h
  subst h
  have hab : a.z = b.z := (hz i a ha).trans (hz j b hb).symm
  obtain ⟨hza, hzb⟩ := resolvePair_equalDepth sqrt a b a' b' hab hr
  intro k s hk
  rw [List.getElem?_set] at hk
  split_ifs at hk with hjk hlt
  · simp only [Option.some.injEq] at hk
    subst hk
    rw [hzb]
    exact hz j b hb
  · rw [List.getElem?_set] at hk
    split_ifs at hk with hik hlt
    · simp only [Option.some.injEq] at hk
      subst hk
      rw [hza]
      exact hz i a ha
    · exact hz k s hk

/-- The collision scan on a store whose shapes all lie at the depth `z0` leaves them there,
whatever collisions it resolves. -/
theorem scanFrom_sameDepth (sqrt : α → α) (i : ℕ) (z0 : α) :
    ∀ (js : List ℕ) (S S' : List (Shape α)),
      (∀ (k : ℕ) (s : Shape α), S[k]? = some s → s.z = z0) →
      scanFrom sqrt i js S = some S' →
      ∀ (k : ℕ) (s : Shape α), S'[k]? = some s → s.z = z0
  | [], S, S', hz, h => by
    simp only [scanFrom, Option.some.injEq] at h
    subst h
    exact hz
  | j :: rest, S, S', hz, h => by
    simp only [scanFrom] at h
    split_ifs at h with hji
    · exact scanFrom_sameDepth sqrt i z0 rest S S' hz h
    · rcases hc : collide sqrt i j S with _ | S1
      · rw [hc] at h; exact Option.noConfusion h
      · rw [hc] at h
        exact scanFrom_sameDepth sqrt i z0 rest S1 S'
          (collide_sameDepth sqrt i j S S1 z0 hz hc) h

/-- C4, amended. In a store in which every shape satisfies the depth invariant with a radius
in `[0.05, 0.15]`, after a complete `updateShape` call (integration, boundary step and
collision scan) that returns a store, every shape has kept its place and its radius, and,
compared with the store after the boundary step: a shape whose depth `z` the collision scan
has left unchanged still satisfies the invariant; a shape other than the updated one has moved
in depth by at most `0.15`, the updated one by at most `0.15` for each other shape of the
store, so that a shape that lay that far inside both planes still satisfies the invariant;
and when all shapes lie at the depth of the updated one, every shape of the returned store
satisfies the invariant, whatever collisions the scan resolves. -/
theorem updateShape_depth_survives (shapes shapes' : List (Shape ℝ)) (i : ℕ) (dt : ℝ)
    (shape : Shape ℝ)
    (hdepth : ∀ s ∈ shapes, DepthInRange s)
    (hradius : ∀ s ∈ shapes, 0.05 ≤ s.radius ∧ s.radius ≤ 0.15)
    (_hdt : 0 ≤ dt)
    (hi : shapes[i]? = some shape)
    (h : updateShape Real.sqrt shapes i dt = some shapes') :
    ∃ shape1, boundaryStep shape dt = some shape1 ∧ shapes'.length = shapes.length ∧
      (∀ k s s', (shapes.set i shape1)[k]? = some s → shapes'[k]? = some s' →
        s'.radius = s.radius ∧
        (s'.z = s.z → DepthInRange s') ∧
        |s'.z - s.z| ≤ 0.15 * (scanMoves shapes.length i k : ℝ) ∧
        (NEAR_PLANE + 0.15 * (scanMoves shapes.length i k : ℝ) ≤ s.z - s.radius →
          s.z + s.radius ≤ FAR_PLANE - 0.15 * (scanMoves shapes.length i k : ℝ) →
          DepthInRange s')) ∧
      ((∀ s ∈ shapes.set i shape1, s.z = shape1.z) → ∀ s' ∈ shapes', DepthInRange s') := by
  have hilt : i < shapes.length := by
    rcases Nat.lt_or_ge i shapes.length with hlt | hge
    · exact hlt
    · rw [List.getElem?_eq_none hge] at hi
      exact Option.noConfusion hi
  have hmem : shape ∈ shapes := List.mem_iff_getElem?.2 ⟨i, hi⟩
  simp only [updateShape, hi] at h
  rcases hb : boundaryStep shape dt with _ | shape1
  · rw [hb] at h; exact Option.noConfusion h
  rw [hb] at h
  simp only [collisionScan, List.length_set] at h
  have hr1 : shape1.radius = shape.radius := boundaryStep_radius shape shape1 dt hb
  have hd1 : DepthInRange shape1 := boundaryStep_inRange shape shape1 dt (hradius shape hmem).2 hb
  -- the store after the boundary step
  have hbase : ∀ (k : ℕ) (s : Shape ℝ), (shapes.set i shape1)[k]? = some s →
      DepthInRange s ∧ s.radius ≤ 0.15 := by
    intro k s hk
    rcases List.mem_or_eq_of_mem_set (List.mem_iff_getElem?.2 ⟨k, hk⟩) with hm | he
    · exact ⟨hdepth s hm, (hradius s hm).2⟩
    · rw [he]
      exact ⟨hd1, by rw [hr1]; exact (hradius shape hmem).2⟩
  obtain ⟨hlen, hall⟩ := scanFrom_frame i 0.15 (by norm_num) (List.range shapes.length)
    (shapes.set i shape1) shapes' (List.nodup_range _) (fun k s hk => (hbase k s hk).2) h
  have hpoint : ∀ k s s', (shapes.set i shape1)[k]? = some s → shapes'[k]? = some s' →
      s'.radius = s.radius ∧ (s'.z = s.z → DepthInRange s') ∧
      |s'.z - s.z| ≤ 0.15 * (scanMoves shapes.length i k : ℝ) := by
    intro k s s' hk hk'
    obtain ⟨s0, hs0, hr, _, hb1, hbi⟩ := hall k s' hk'
    rw [hk] at hs0
    simp only [Option.some.injEq] at hs0
    subst hs0
    refine ⟨hr, ?_, ?_⟩
    · intro hz
      have := (hbase k s hk).1
      unfold DepthInRange at this ⊢
      rw [hz, hr]
      exact this
    · by_cases hki : k = i
      · have := hbi hki
        rw [countP_ne_range i shapes.length hilt] at this
        simpa [scanMoves, hki] using this
      · have := hb1 hki
        simpa [scanMoves, hki] using this
  refine ⟨shape1, rfl, by simpa using hlen, ?_, ?_⟩
  · intro k s s' hk hk'
    obtain ⟨hr, hz, habs⟩ := hpoint k s s' hk hk'
    refine ⟨hr, hz, habs, ?_⟩
    intro hlo hhi
    have := abs_le.1 habs
    unfold DepthInRange
    rw [hr]
    constructor <;> linarith [this.1, this.2]
  · intro hsame s' hs'
    obtain ⟨k, hk'⟩ := List.mem_iff_getElem?.1 hs'
    obtain ⟨s, hs, _⟩ := hall k s' hk'
    have hz' : s'.z = shape1.z := scanFrom_sameDepth Real.sqrt i shape1.z _ _ shapes'
      (fun k s hk => hsame s (List.mem_iff_getElem?.2 ⟨k, hk⟩)) h k s' hk'
    have hz : s.z = shape1.z := hsame s (List.mem_iff_getElem?.2 ⟨k, hs⟩)
    exact (hpoint k s s' hs hk').2.1 (hz'.trans hz.symm)

/-- Witness of the amended C4: two shapes of radius `0.1` at rest on the same axis at depths
`1` and `1.02`; the collision scan of the first one pushes them to depths `0.91` and `1.11`,
each by `0.09`, and both stay inside the depth range. -/
theorem updateShape_depth_survives_witness :
    ∃ shape1, boundaryStep (⟨3, 0.1, 0, 0, 1, 0, 0, 0, 1, 1, 1⟩ : Shape ℝ) 0.5 = some shape1 ∧
      [(⟨3, 0.1, 0, 0, 0.91, 0, 0, 0, 1, 1, 1⟩ : Shape ℝ),
        ⟨4, 0.1, 0, 0, 1.11, 0, 0, 0, 1, 1, 1⟩].length =
        [(⟨3, 0.1, 0, 0, 1, 0, 0, 0, 1, 1, 1⟩ : Shape ℝ),
          ⟨4, 0.1, 0, 0, 1.02, 0, 0, 0, 1, 1, 1⟩].length ∧
      (∀ k s s',
        ([(⟨3, 0.1, 0, 0, 1, 0, 0, 0, 1, 1, 1⟩ : Shape ℝ),
          ⟨4, 0.1, 0, 0, 1.02, 0, 0, 0, 1, 1, 1⟩].set 0 shape1)[k]? = some s →
        [(⟨3, 0.1, 0, 0, 0.91, 0, 0, 0, 1, 1, 1⟩ : Shape ℝ),
          ⟨4, 0.1, 0, 0, 1.11, 0, 0, 0, 1, 1, 1⟩][k]? = some s' →
        s'.radius = s.radius ∧
        (s'.z = s.z → DepthInRange s') ∧
        |s'.z - s.z| ≤ 0.15 * (scanMoves
          [(⟨3, 0.1, 0, 0, 1, 0, 0, 0, 1, 1, 1⟩ : Shape ℝ),
            ⟨4, 0.1, 0, 0, 1.02, 0, 0, 0, 1, 1, 1⟩].length 0 k : ℝ) ∧
        (NEAR_PLANE + 0.15 * (scanMoves
            [(⟨3, 0.1, 0, 0, 1, 0, 0, 0, 1, 1, 1⟩ : Shape ℝ),
              ⟨4, 0.1, 0, 0, 1.02, 0, 0, 0, 1, 1, 1⟩].length 0 k : ℝ) ≤ s.z - s.radius →
          s.z + s.radius ≤ FAR_PLANE - 0.15 * (scanMoves
            [(⟨3, 0.1, 0, 0, 1, 0, 0, 0, 1, 1, 1⟩ : Shape ℝ),
              ⟨4, 0.1, 0, 0, 1.02, 0, 0, 0, 1, 1, 1⟩].length 0 k : ℝ) →
          DepthInRange s')) ∧
      ((∀ s ∈ [(⟨3, 0.1, 0, 0, 1, 0, 0, 0, 1, 1, 1⟩ : Shape ℝ),
          ⟨4, 0.1, 0, 0, 1.02, 0, 0, 0, 1, 1, 1⟩].set 0 shape1, s.z = shape1.z) →
        ∀ s' ∈ [(⟨3, 0.1, 0, 0, 0.91, 0, 0, 0, 1, 1, 1⟩ : Shape ℝ),
          ⟨4, 0.1, 0, 0, 1.11, 0, 0, 0, 1, 1, 1⟩], DepthInRange s') := by
  have hs : Real.sqrt (1 / 2500) = 1 / 50 := by
    rw [Real.sqrt_eq_iff_mul_self_eq] <;> norm_num
  apply updateShape_depth_survives _ _ 0 0.5 ⟨3, 0.1, 0, 0, 1, 0, 0, 0, 1, 1, 1⟩
  · intro s h
    simp only [List.mem_cons, List.mem_singleton, List.not_mem_nil, or_false] at h
    rcases h with rfl | rfl <;> norm_num [DepthInRange, NEAR_PLANE, FAR_PLANE]
  · intro s h
    simp only [List.mem_cons, List.mem_singleton, List.not_mem_nil, or_false] at h
    rcases h with rfl | rfl <;> norm_num
  · norm_num
  · rfl
  · norm_num [updateShape, boundaryStep, integrate, clampLateral, clampDepth, NEAR_PLANE,
      FAR_PLANE, collisionScan, List.range_succ, scanFrom, collide, resolvePair, hs]

/-- C4, as stated, fails: two shapes of radius `0.1` at rest at depths `0.25` and `0.27` both
satisfy the depth invariant and overlap; the collision scan of the first one pushes it to
depth `0.16`, so that `z - radius = 0.06 < NEAR_PLANE`, and no wall test follows the scan. -/
theorem updateShape_depth_counterexample :
    DepthInRange (⟨3, 0.1, 0, 0, 0.25, 0, 0, 0, 1, 1, 1⟩ : Shape ℝ) ∧
    DepthInRange (⟨4, 0.1, 0, 0, 0.27, 0, 0, 0, 1, 1, 1⟩ : Shape ℝ) ∧
    ((0.05 : ℝ) ≤ 0.1 ∧ (0.1 : ℝ) ≤ 0.15 ∧ (0 : ℝ) ≤ 0.5) ∧
    ∃ A B, updateShape Real.sqrt
        [(⟨3, 0.1, 0, 0, 0.25, 0, 0, 0, 1, 1, 1⟩ : Shape ℝ),
          ⟨4, 0.1, 0, 0, 0.27, 0, 0, 0, 1, 1, 1⟩]
        0 0.5 = some [A, B] ∧ ¬ DepthInRange A := by
  have hs : Real.sqrt (1 / 2500) = 1 / 50 := by
    rw [Real.sqrt_eq_iff_mul_self_eq] <;> norm_num
  refine ⟨by norm_num [DepthInRange, NEAR_PLANE, FAR_PLANE],
    by norm_num [DepthInRange, NEAR_PLANE, FAR_PLANE], by norm_num,
    ⟨3, 0.1, 0, 0, 0.16, 0, 0, 0, 1, 1, 1⟩, ⟨4, 0.1, 0, 0, 0.36, 0, 0, 0, 1, 1, 1⟩, ?_, ?_⟩
  · norm_num [updateShape, boundaryStep, integrate, clampLateral, clampDepth,
      NEAR_PLANE, FAR_PLANE, collisionScan, List.range_succ, scanFrom, collide, resolvePair, hs]
  · norm_num [DepthInRange, NEAR_PLANE, FAR_PLANE]

/-- An instance of `updateShape_depth_noCollision`: two shapes of radius `0.1` at depth `1`,
`0.5` apart; the first one moves by `0.05` and stays `0.45` away from the second. -/
theorem updateShape_depth_noCollision_witness :
    updateShape Real.sqrt
        [(⟨3, 0.1, 0, 0, 1, 0.1, 0, 0, 1, 1, 1⟩ : Shape ℝ), ⟨4, 0.1, 0.5, 0, 1, 0, 0, 0, 1, 1, 1⟩]
        0 0.5 =
      some ([(⟨3, 0.1, 0, 0, 1, 0.1, 0, 0, 1, 1, 1⟩ : Shape ℝ),
        ⟨4, 0.1, 0.5, 0, 1, 0, 0, 0, 1, 1, 1⟩].set 0 ⟨3, 0.1, 0.05, 0, 1, 0.1, 0, 0, 1, 1, 1⟩) ∧
    ∀ s ∈ [(⟨3, 0.1, 0, 0, 1, 0.1, 0, 0, 1, 1, 1⟩ : Shape ℝ),
        ⟨4, 0.1, 0.5, 0, 1, 0, 0, 0, 1, 1, 1⟩].set 0 ⟨3, 0.1, 0.05, 0, 1, 0.1, 0, 0, 1, 1, 1⟩,
      DepthInRange s := by
  have hs : Real.sqrt (81 / 400) = 9 / 20 := by
    rw [Real.sqrt_eq_iff_mul_self_eq] <;> norm_num
  apply updateShape_depth_noCollision Real.sqrt _ 0 0.5 ⟨3, 0.1, 0, 0, 1, 0.1, 0, 0, 1, 1, 1⟩
  · intro s h
    simp only [List.mem_cons, List.mem_singleton, List.not_mem_nil, or_false] at h
    rcases h with rfl | rfl <;> norm_num [DepthInRange, NEAR_PLANE, FAR_PLANE]
  · intro s h
    simp only [List.mem_cons, List.mem_singleton, List.not_mem_nil, or_false] at h
    rcases h with rfl | rfl <;> norm_num
  · norm_num
  · rfl
  · norm_num [boundaryStep, integrate, clampLateral, clampDepth, NEAR_PLANE, FAR_PLANE]
  · intro j other hj h
    match j, hj, h with
    | 0, hj, _ => exact absurd rfl hj
    | 1, _, h =>
      simp only [List.getElem?_cons_succ, List.getElem?_cons_zero, Option.some.injEq] at h
      subst h
      norm_num [centerDist, hs]
    | k + 2, _, h => simp at h

/-! ## A shape on a wall -/

theorem integrate_zero (shape : Shape α) : integrate shape 0 = shape := by
  simp [integrate]

/-- A shape within the closed lateral bounds passes the four lateral tests unchanged. -/
theorem clampLateral_inside (shape : Shape α) (hz : shape.z ≠ 0)
    (hx1 : -1 ≤ shape.x - shape.radius / shape.z) (hx2 : shape.x + shape.radius / shape.z ≤ 1)
    (hy1 : -1 ≤ shape.y - shape.radius / shape.z) (hy2 : shape.y + shape.radius / shape.z ≤ 1) :
    clampLateral shape = some shape := by
  simp only [clampLateral, if_neg hz, if_neg (not_lt.2 hx1), gt_iff_lt, if_neg (not_lt.2 hx2),
    if_neg (not_lt.2 hy1), if_neg (not_lt.2 hy2)]

/-- A shape within the depth range passes the two depth tests unchanged. -/
theorem clampDepth_inside (shape : Shape α) (h : DepthInRange shape) :
    clampDepth shape = shape := by
  simp only [clampDepth, if_neg (not_lt.2 h.1), gt_iff_lt, if_neg (not_lt.2 h.2)]

theorem updateShape_single (sqrt : α → α) (shape : Shape α) (dt : α) :
    updateShape sqrt [shape] 0 dt = (boundaryStep shape dt).map fun s => [s] := by
  rcases h : boundaryStep shape dt with _ | s <;>
    simp [updateShape, h, collisionScan, List.range_succ, scanFrom]

/-- For a single-shape store whose shape lies within the closed bounds of all six walls, in
particular exactly on one of them, whatever its velocity, `updateShape` with `dt = 0` returns
the store unchanged: the wall tests are strict comparisons. -/
theorem updateShape_onWall (sqrt : α → α) (shape : Shape α) (hz : shape.z ≠ 0)
    (hx1 : -1 ≤ shape.x - shape.radius / shape.z) (hx2 : shape.x + shape.radius / shape.z ≤ 1)
    (hy1 : -1 ≤ shape.y - shape.radius / shape.z) (hy2 : shape.y + shape.radius / shape.z ≤ 1)
    (hz1 : NEAR_PLANE ≤ shape.z - shape.radius) (hz2 : shape.z + shape.radius ≤ FAR_PLANE) :
    updateShape sqrt [shape] 0 0 = some [shape] := by
  rw [updateShape_single, boundaryStep, integrate_zero,
    clampLateral_inside shape hz hx1 hx2 hy1 hy2]
  simp [clampDepth_inside shape ⟨hz1, hz2⟩]

/-- An instance of `updateShape_onWall`: radius `0.1` at depth `1` and `x = 0.9`, on the high
`x` wall, moving outward with `vx = 0.25`. -/
theorem updateShape_onWall_witness :
    updateShape Real.sqrt [(⟨3, 0.1, 0.9, 0, 1, 0.25, 0, 0, 1, 1, 1⟩ : Shape ℝ)] 0 0 =
      some [⟨3, 0.1, 0.9, 0, 1, 0.25, 0, 0, 1, 1, 1⟩] :=
  updateShape_onWall Real.sqrt ⟨3, 0.1, 0.9, 0, 1, 0.25, 0, 0, 1, 1, 1⟩ (by norm_num)
    (by norm_num) (by norm_num) (by norm_num) (by norm_num) (by norm_num [NEAR_PLANE])
    (by norm_num [FAR_PLANE])

theorem clampDepth_vx (shape : Shape α) : (clampDepth shape).vx = shape.vx := by
  simp only [clampDepth]
  split_ifs <;> rfl

theorem clampDepth_vy (shape : Shape α) : (clampDepth shape).vy = shape.vy := by
  simp only [clampDepth]
  split_ifs <;> rfl

/-- The lateral tests leave depth, radius and depth velocity as they are. -/
theorem clampLateral_depth (shape shape' : Shape α) (h : clampLateral shape = some shape') :
    shape'.z = shape.z ∧ shape'.radius = shape.radius ∧ shape'.vz = shape.vz := by
  unfold clampLateral at h
  split_ifs at h with hz
  simp only [Option.some.injEq] at h
  subst h
  refine ⟨?_, ?_, ?_⟩ <;> (split_ifs <;> rfl)

/-- The `x` fields after the lateral tests when only the low `x` test fires. -/
theorem clampLateral_xLow (shape : Shape α) (hz : shape.z ≠ 0)
    (h1 : shape.x - shape.radius / shape.z < -1) (h2 : shape.radius / shape.z ≤ 1) :
    ∃ shape', clampLateral shape = some shape' ∧
      shape'.x = -1 + shape.radius / shape.z ∧ shape'.vx = shape.vx * -1 := by
  have h3 : ¬ (-1 + shape.radius / shape.z + shape.radius / shape.z > 1) := by
    intro h; linarith
  simp only [clampLateral, if_neg hz, if_pos h1, h3, if_false]
  refine ⟨_, rfl, ?_, ?_⟩ <;> split_ifs <;> rfl

/-- The `x` fields after the lateral tests when only the high `x` test fires. -/
theorem clampLateral_xHigh (shape : Shape α) (hz : shape.z ≠ 0)
    (h1 : ¬ shape.x - shape.radius / shape.z < -1) (h2 : shape.x + shape.radius / shape.z > 1) :
    ∃ shape', clampLateral shape = some shape' ∧
      shape'.x = 1 - shape.radius / shape.z ∧ shape'.vx = shape.vx * -1 := by
  simp only [clampLateral, if_neg hz, if_neg h1, if_pos h2]
  refine ⟨_, rfl, ?_, ?_⟩ <;> split_ifs <;> rfl

/-- The `y` fields after the lateral tests when only the low `y` test fires. -/
theorem clampLateral_yLow (shape : Shape α) (hz : shape.z ≠ 0)
    (h1 : shape.y - shape.radius / shape.z < -1) (h2 : shape.radius / shape.z ≤ 1) :
    ∃ shape', clampLateral shape = some shape' ∧
      shape'.y = -1 + shape.radius / shape.z ∧ shape'.vy = shape.vy * -1 := by
  have h3 : ¬ (-1 + shape.radius / shape.z + shape.radius / shape.z > 1) := by
    intro h; linarith
  simp only [clampLateral, if_neg hz]
  refine ⟨_, rfl, ?_, ?_⟩ <;> split_ifs <;> rfl

/-- The `y` fields after the lateral tests when only the high `y` test fires. -/
theorem clampLateral_yHigh (shape : Shape α) (hz : shape.z ≠ 0)
    (h1 : ¬ shape.y - shape.radius / shape.z < -1) (h2 : shape.y + shape.radius / shape.z > 1) :
    ∃ shape', clampLateral shape = some shape' ∧
      shape'.y = 1 - shape.radius / shape.z ∧ shape'.vy = shape.vy * -1 := by
  simp only [clampLateral, if_neg hz]
  refine ⟨_, rfl, ?_, ?_⟩ <;> split_ifs <;> rfl

/-- The depth fields after the depth tests when only the near-plane test fires. -/
theorem clampDepth_near (shape : Shape α) (h1 : shape.z - shape.radius < NEAR_PLANE)
    (h2 : NEAR_PLANE + shape.radius + shape.radius ≤ FAR_PLANE) :
    (clampDepth shape).z = NEAR_PLANE + shape.radius ∧
      (clampDepth shape).vz = shape.vz * -1 := by
  have h3 : ¬ (NEAR_PLANE + shape.radius + shape.radius > FAR_PLANE) := not_lt.2 h2
  simp only [clampDepth, if_pos h1, h3, if_false, and_self]

/-- The depth fields after the depth tests when only the far-plane test fires. -/
theorem clampDepth_far (shape : Shape α) (h1 : ¬ shape.z - shape.radius < NEAR_PLANE)
    (h2 : shape.z + shape.radius > FAR_PLANE) :
    (clampDepth shape).z = FAR_PLANE - shape.radius ∧
      (clampDepth shape).vz = shape.vz * -1 := by
  simp only [clampDepth, if_neg h1, if_pos h2, and_self]

/-- C7, amended. Reflection at the clamp point: for a single-shape store whose shape lies
exactly on a wall, with the velocity component of that axis pointing outward, and is not
beyond the opposite wall of that axis, `updateShape` with any `dt > 0` puts the shape back at
that same boundary position and negates that velocity component, with its absolute value
unchanged. For a lateral wall `vz = 0` is assumed, so that integration does not change the
projected radius `radius / z`; the integrated depth is assumed not to be `0`, where
`radius / z` has no value. -/
theorem updateShape_reflects (sqrt : α → α) (w : Wall) (shape : Shape α) (dt : α)
    (hdt : 0 < dt) (hon : w.onWall shape) (hout : w.outward shape)
    (hopp : w.opposite.within shape) (hlat : w.lateral = true → shape.vz = 0)
    (hz : shape.z + shape.vz * dt ≠ 0) :
    ∃ shape', updateShape sqrt [shape] 0 dt = some [shape'] ∧
      w.coord shape' = w.coord shape ∧
      w.speed shape' = -(w.speed shape) ∧ |w.speed shape'| = |w.speed shape| := by
  have hz0 : (integrate shape dt).z ≠ 0 := hz
  rw [updateShape_single]
  cases w
  · -- low `x` wall
    have hvz : shape.vz = 0 := hlat rfl
    have hzz : (integrate shape dt).z = shape.z := by simp [integrate, hvz]
    have hneg : shape.vx * dt < 0 := mul_neg_of_neg_of_pos hout hdt
    simp only [Wall.onWall] at hon
    simp only [Wall.opposite, Wall.within] at hopp
    obtain ⟨s1, hs1, hc, hv⟩ := clampLateral_xLow (integrate shape dt) hz0
      (by rw [hzz]; show shape.x + shape.vx * dt - shape.radius / shape.z < -1; linarith)
      (by rw [hzz]; show shape.radius / shape.z ≤ 1; linarith)
    rw [hzz] at hc
    have hc' : (clampDepth s1).x = shape.x := by
      rw [clampDepth_x, hc]; show -1 + shape.radius / shape.z = shape.x; linarith
    have hv' : (clampDepth s1).vx = -shape.vx := by
      rw [clampDepth_vx, hv]; show shape.vx * -1 = -shape.vx; ring
    exact ⟨clampDepth s1, by simp [boundaryStep, hs1], hc', hv',
      by simp only [Wall.speed, hv', abs_neg]⟩
  · -- high `x` wall
    have hvz : shape.vz = 0 := hlat rfl
    have hzz : (integrate shape dt).z = shape.z := by simp [integrate, hvz]
    have hpos : 0 < shape.vx * dt := mul_pos hout hdt
    simp only [Wall.onWall] at hon
    simp only [Wall.opposite, Wall.within] at hopp
    obtain ⟨s1, hs1, hc, hv⟩ := clampLateral_xHigh (integrate shape dt) hz0
      (by rw [hzz]; show ¬ shape.x + shape.vx * dt - shape.radius / shape.z < -1; linarith)
      (by rw [hzz]; show shape.x + shape.vx * dt + shape.radius / shape.z > 1; linarith)
    rw [hzz] at hc
    have hc' : (clampDepth s1).x = shape.x := by
      rw [clampDepth_x, hc]; show 1 - shape.radius / shape.z = shape.x; linarith
    have hv' : (clampDepth s1).vx = -shape.vx := by
      rw [clampDepth_vx, hv]; show shape.vx * -1 = -shape.vx; ring
    exact ⟨clampDepth s1, by simp [boundaryStep, hs1], hc', hv',
      by simp only [Wall.speed, hv', abs_neg]⟩
  · -- low `y` wall
    have hvz : shape.vz = 0 := hlat rfl
    have hzz : (integrate shape dt).z = shape.z := by simp [integrate, hvz]
    have hneg : shape.vy * dt < 0 := mul_neg_of_neg_of_pos hout hdt
    simp only [Wall.onWall] at hon
    simp only [Wall.opposite, Wall.within] at hopp
    obtain ⟨s1, hs1, hc, hv⟩ := clampLateral_yLow (integrate shape dt) hz0
      (by rw [hzz]; show shape.y + shape.vy * dt - shape.radius / shape.z < -1; linarith)
      (by rw [hzz]; show shape.radius / shape.z ≤ 1; linarith)
    rw [hzz] at hc
    have hc' : (clampDepth s1).y = shape.y := by
      rw [clampDepth_y, hc]; show -1 + shape.radius / shape.z = shape.y; linarith
    have hv' : (clampDepth s1).vy = -shape.vy := by
      rw [clampDepth_vy, hv]; show shape.vy * -1 = -shape.vy; ring
    exact ⟨clampDepth s1, by simp [boundaryStep, hs1], hc', hv',
      by simp only [Wall.speed, hv', abs_neg]⟩
  · -- high `y` wall
    have hvz : shape.vz = 0 := hlat rfl
    have hzz : (integrate shape dt).z = shape.z := by simp [integrate, hvz]
    have hpos : 0 < shape.vy * dt := mul_pos hout hdt
    simp only [Wall.onWall] at hon
    simp only [Wall.opposite, Wall.within] at hopp
    obtain ⟨s1, hs1, hc, hv⟩ := clampLateral_yHigh (integrate shape dt) hz0
      (by rw [hzz]; show ¬ shape.y + shape.vy * dt - shape.radius / shape.z < -1; linarith)
      (by rw [hzz]; show shape.y + shape.vy * dt + shape.radius / shape.z > 1; linarith)
    rw [hzz] at hc
    have hc' : (clampDepth s1).y = shape.y := by
      rw [clampDepth_y, hc]; show 1 - shape.radius / shape.z = shape.y; linarith
    have hv' : (clampDepth s1).vy = -shape.vy := by
      rw [clampDepth_vy, hv]; show shape.vy * -1 = -shape.vy; ring
    exact ⟨clampDepth s1, by simp [boundaryStep, hs1], hc', hv',
      by simp only [Wall.speed, hv', abs_neg]⟩
  · -- near plane
    have hneg : shape.vz * dt < 0 := mul_neg_of_neg_of_pos hout hdt
    simp only [Wall.onWall] at hon
    simp only [Wall.opposite, Wall.within] at hopp
    obtain ⟨s1, hs1, _, _, _, _⟩ := clampLateral_some (integrate shape dt) hz0
    obtain ⟨h1, h2, h3⟩ := clampLateral_depth (integrate shape dt) s1 hs1
    have hsz : s1.z = shape.z + shape.vz * dt := h1
    have hsr : s1.radius = shape.radius := h2
    have hsv : s1.vz = shape.vz := h3
    obtain ⟨hcz, hcv⟩ := clampDepth_near s1 (by rw [hsz, hsr]; linarith)
      (by rw [hsr]; linarith)
    have hz' : (clampDepth s1).z = shape.z := by rw [hcz, hsr]; linarith
    have hv' : (clampDepth s1).vz = -shape.vz := by rw [hcv, hsv]; ring
    exact ⟨clampDepth s1, by simp [boundaryStep, hs1], hz', hv',
      by simp only [Wall.speed, hv', abs_neg]⟩
  · -- far plane
    have hpos : 0 < shape.vz * dt := mul_pos hout hdt
    simp only [Wall.onWall] at hon
    simp only [Wall.opposite, Wall.within] at hopp
    obtain ⟨s1, hs1, _, _, _, _⟩ := clampLateral_some (integrate shape dt) hz0
    obtain ⟨h1, h2, h3⟩ := clampLateral_depth (integrate shape dt) s1 hs1
    have hsz : s1.z = shape.z + shape.vz * dt := h1
    have hsr : s1.radius = shape.radius := h2
    have hsv : s1.vz = shape.vz := h3
    obtain ⟨hcz, hcv⟩ := clampDepth_far s1 (by rw [hsz, hsr]; linarith)
      (by rw [hsz, hsr]; linarith)
    have hz' : (clampDepth s1).z = shape.z := by rw [hcz, hsr]; linarith
    have hv' : (clampDepth s1).vz = -shape.vz := by rw [hcv, hsv]; ring
    exact ⟨clampDepth s1, by simp [boundaryStep, hs1], hz', hv',
      by simp only [Wall.speed, hv', abs_neg]⟩

/-- Witness of the amended C7: radius `0.1` at depth `1` and `x = 0.9`, on the high `x` wall,
moving outward with `vx = 0.25`, updated with `dt = 0.5`. -/
theorem updateShape_reflects_witness :
    ∃ shape',
      updateShape Real.sqrt [(⟨3, 0.1, 0.9, 0, 1, 0.25, 0, 0, 1, 1, 1⟩ : Shape ℝ)] 0 0.5 =
        some [shape'] ∧
      Wall.xHigh.coord shape' =
        Wall.xHigh.coord (⟨3, 0.1, 0.9, 0, 1, 0.25, 0, 0, 1, 1, 1⟩ : Shape ℝ) ∧
      Wall.xHigh.speed shape' =
        -(Wall.xHigh.speed (⟨3, 0.1, 0.9, 0, 1, 0.25, 0, 0, 1, 1, 1⟩ : Shape ℝ)) ∧
      |Wall.xHigh.speed shape'| =
        |Wall.xHigh.speed (⟨3, 0.1, 0.9, 0, 1, 0.25, 0, 0, 1, 1, 1⟩ : Shape ℝ)| :=
  updateShape_reflects Real.sqrt Wall.xHigh ⟨3, 0.1, 0.9, 0, 1, 0.25, 0, 0, 1, 1, 1⟩ 0.5
    (by norm_num) (by norm_num [Wall.onWall]) (by norm_num [Wall.outward])
    (by norm_num [Wall.opposite, Wall.within]) (fun _ => rfl) (by norm_num)

/-- C7, as stated, fails: a shape of radius `0.1` at depth `1` and `x = 0.9` lies exactly on
the high `x` wall (`x + radius / z = 1`) with `vx = 0.25` pointing outward; `updateShape`
with `dt = 0` leaves it there and leaves `vx` at `0.25` instead of negating it. -/
theorem updateShape_onWall_counterexample :
    (0.9 : ℝ) + 0.1 / 1 = 1 ∧ (0 : ℝ) < 0.25 ∧
    ∃ shape', updateShape Real.sqrt [(⟨3, 0.1, 0.9, 0, 1, 0.25, 0, 0, 1, 1, 1⟩ : Shape ℝ)] 0 0 =
        some [shape'] ∧ shape'.x = 0.9 ∧ shape'.vx ≠ -0.25 := by
  refine ⟨by norm_num, by norm_num, ⟨3, 0.1, 0.9, 0, 1, 0.25, 0, 0, 1, 1, 1⟩, ?_, rfl, by norm_num⟩
  norm_num [updateShape, boundaryStep, integrate, clampLateral, clampDepth,
      NEAR_PLANE, FAR_PLANE, collisionScan, List.range_succ, scanFrom]

/-! ## The generator -/

theorem rand_unit (RAND_MAX n : ℕ) (hR : 0 < RAND_MAX) (hn : n ≤ RAND_MAX) :
    (0 : α) ≤ (n : α) / (RAND_MAX : α) ∧ (n : α) / (RAND_MAX : α) ≤ 1 := by
  have hRpos : (0 : α) < (RAND_MAX : α) := by exact_mod_cast hR
  have hnle : (n : α) ≤ (RAND_MAX : α) := by exact_mod_cast hn
  exact ⟨div_nonneg (Nat.cast_nonneg n) hRpos.le, (div_le_one hRpos).2 hnle⟩

theorem rand_scaled (RAND_MAX n : ℕ) (c : α) :
    (n : α) / ((RAND_MAX : α) / c) = c * ((n : α) / (RAND_MAX : α)) := by
  rw [div_div_eq_mul_div, mul_div_assoc, mul_comm]
  ring

theorem sides_range (n : ℕ) :
    (((n % 3 + 3 : ℕ) : Int) = 3 ∨ ((n % 3 + 3 : ℕ) : Int) = 4 ∨ ((n % 3 + 3 : ℕ) : Int) = 5) := by
  have h : n % 3 < 3 := Nat.mod_lt n (by norm_num)
  omega

theorem randomShape_ranges (RAND_MAX : ℕ) (rand : ℕ → ℕ) (k : ℕ) (hR : 0 < RAND_MAX)
    (hrand : ∀ n, rand n ≤ RAND_MAX) :
    InGeneratorRanges (randomShape RAND_MAX rand k : Shape α) := by
  have u : ∀ n, (0 : α) ≤ (rand n : α) / (RAND_MAX : α) ∧ (rand n : α) / (RAND_MAX : α) ≤ 1 :=
    fun n => rand_unit RAND_MAX (rand n) hR (hrand n)
  simp only [InGeneratorRanges, randomShape, rand_scaled, NEAR_PLANE, FAR_PLANE]
  refine ⟨sides_range _, ?_, ?_, ?_, ?_, ?_, ?_, ?_, u _, u _, u _⟩
  · have := u (k + 1)
    norm_num
    constructor <;> linarith
  · have := u (k + 2)
    constructor <;> linarith
  · have := u (k + 3)
    constructor <;> linarith
  · have := u (k + 4)
    norm_num
    constructor <;> linarith
  · have := u (k + 5)
    norm_num
    constructor <;> linarith
  · have := u (k + 6)
    norm_num
    constructor <;> linarith
  · have := u (k + 7)
    norm_num
    constructor <;> linarith

theorem generateLoop_length (RAND_MAX : ℕ) (rand : ℕ → ℕ) :
    ∀ (n k : ℕ) (shapes : List (Shape α)),
      (generateLoop RAND_MAX rand n k shapes).length = shapes.length + n
  | 0, _, _ => rfl
  | n + 1, k, shapes => by
    rw [generateLoop, generateLoop_length RAND_MAX rand n]
    simp only [List.length_append, List.length_singleton]
    omega

theorem generateLoop_mem (RAND_MAX : ℕ) (rand : ℕ → ℕ) :
    ∀ (n k : ℕ) (shapes : List (Shape α)) (s : Shape α),
      s ∈ generateLoop RAND_MAX rand n k shapes →
        s ∈ shapes ∨ ∃ m, s = randomShape RAND_MAX rand m
  | 0, _, _, _, h => Or.inl h
  | n + 1, k, shapes, s, h => by
    rw [generateLoop] at h
    rcases generateLoop_mem RAND_MAX rand n (k + 11) _ s h with h1 | h1
    · rcases List.mem_append.1 h1 with h2 | h2
      · exact Or.inl h2
      · exact Or.inr ⟨k, List.mem_singleton.1 h2⟩
    · exact Or.inr h1

theorem generateLoop_toBasic (RAND_MAX : ℕ) (rand : ℕ → ℕ) :
    ∀ (n k : ℕ) (shapes : List (Parallel.Shape α)),
      (Parallel.generateLoop RAND_MAX rand n k shapes).map Parallel.Shape.toBasic =
        generateLoop RAND_MAX rand n k (shapes.map Parallel.Shape.toBasic)
  | 0, _, _ => rfl
  | n + 1, k, shapes => by
    rw [Parallel.generateLoop, generateLoop, generateLoop_toBasic RAND_MAX rand n]
    simp only [List.map_append, List.map_cons, List.map_nil]
    rfl

/-- C8, amended. For every `N > 0` and every stream of `rand()` results in `[0, RAND_MAX]`,
`generateShapes(N)` discards the previous store and leaves exactly `N` shapes, each with
`sides ∈ {3, 4, 5}`, `radius ∈ [0.05, 0.15]`, `x, y ∈ [-1, 1]`, `z ∈ [NEAR_PLANE, FAR_PLANE]`,
every velocity component in `[-0.25, 0.25]` and every colour component in `[0, 1]`: the
intervals are closed. The generator of `parallel.cpp` produces the same shapes in the fields
it shares with `main.cpp`. -/
theorem generateShapes_ranges (RAND_MAX : ℕ) (rand : ℕ → ℕ) (N : Int)
    (shapes : List (Shape α)) (pshapes : List (Parallel.Shape α))
    (hN : 0 < N) (hR : 0 < RAND_MAX) (hrand : ∀ n, rand n ≤ RAND_MAX) :
    generateShapes RAND_MAX rand N shapes = generateShapes RAND_MAX rand N [] ∧
    ((generateShapes RAND_MAX rand N shapes).length : Int) = N ∧
    (∀ s ∈ generateShapes RAND_MAX rand N shapes, InGeneratorRanges s) ∧
    (Parallel.generateShapes RAND_MAX rand N pshapes).map Parallel.Shape.toBasic =
      generateShapes RAND_MAX rand N shapes := by
  refine ⟨rfl, ?_, ?_, ?_⟩
  rotate_left
  rotate_left
  · simp only [Parallel.generateShapes, generateShapes, generateLoop_toBasic]
    rfl
  · simp only [generateShapes, generateLoop_length, List.length_nil, Nat.zero_add]
    exact Int.toNat_of_nonneg hN.le
  · intro s hs
    rcases generateLoop_mem RAND_MAX rand _ _ _ s hs with h | ⟨m, rfl⟩
    · simp at h
    · exact randomShape_ranges RAND_MAX rand m hR hrand

/-- Witness of the amended C8: `N = 2`, `RAND_MAX = 2147483647` and a linear congruential
stream, on a store that held one shape. -/
theorem generateShapes_ranges_witness :
    generateShapes 2147483647 (fun n => (1103515245 * n + 12345) % 2147483648) 2
        ([⟨3, 1, 0, 0, 1, 0, 0, 0, 1, 1, 1⟩] : List (Shape ℚ)) =
      generateShapes 2147483647 (fun n => (1103515245 * n + 12345) % 2147483648) 2 [] ∧
    ((generateShapes 2147483647 (fun n => (1103515245 * n + 12345) % 2147483648) 2
        ([⟨3, 1, 0, 0, 1, 0, 0, 0, 1, 1, 1⟩] : List (Shape ℚ))).length : Int) = 2 ∧
    (∀ s ∈ generateShapes 2147483647 (fun n => (1103515245 * n + 12345) % 2147483648) 2
        ([⟨3, 1, 0, 0, 1, 0, 0, 0, 1, 1, 1⟩] : List (Shape ℚ)), InGeneratorRanges s) ∧
    (Parallel.generateShapes 2147483647 (fun n => (1103515245 * n + 12345) % 2147483648) 2
        ([] : List (Parallel.Shape ℚ))).map Parallel.Shape.toBasic =
      generateShapes 2147483647 (fun n => (1103515245 * n + 12345) % 2147483648) 2
        ([⟨3, 1, 0, 0, 1, 0, 0, 0, 1, 1, 1⟩] : List (Shape ℚ)) :=
  generateShapes_ranges 2147483647 (fun n => (1103515245 * n + 12345) % 2147483648) 2 _ _
    (by norm_num) (by norm_num) (fun n => by show _ % _ ≤ _; omega)

/-- C8, as stated, fails: when `rand()` returns `RAND_MAX` (here `2147483647`), the generated
radius is `0.05 + RAND_MAX / (RAND_MAX / 0.1) = 0.15`, which is not below `0.15`. -/
theorem generateShapes_halfOpen_counterexample :
    (0 : Int) < 1 ∧ (∀ n : ℕ, (fun _ : ℕ => 2147483647) n ≤ 2147483647) ∧
    ∃ s ∈ generateShapes 2147483647 (fun _ => 2147483647) 1 ([] : List (Shape ℝ)),
      ¬ s.radius < 0.15 := by
  refine ⟨by norm_num, fun n => le_refl _, randomShape 2147483647 (fun _ => 2147483647) 0, ?_, ?_⟩
  · simp [generateShapes, generateLoop]
  · norm_num [randomShape]

/-! ## The cosmetic mutation of the extended variant -/

/-- C9. Nested cosmetic thresholds: in every collision that the loop body of `parallel.cpp`
resolves, the single draw `p = rand() / RAND_MAX ∈ [0, 1]` decides both mutations of the
updated shape. For `p ≥ 0.10` neither `rotationSpeed` nor the colour changes; for
`0.05 ≤ p < 0.10` the `rotationSpeed` is drawn anew and the colour is unchanged; for `p < 0.05`
both are drawn anew; the other shape of the pair keeps its colour and `rotationSpeed`. -/
theorem resolvePair_cosmetic (RAND_MAX : ℕ) (rand : ℕ → ℕ) (sqrt : α → α)
    (shape other : Parallel.Shape α) (k : ℕ)
    (hR : 0 < RAND_MAX) (hrand : ∀ n, rand n ≤ RAND_MAX)
    (hlt : Parallel.centerDist sqrt shape other < shape.radius + other.radius)
    (hne : Parallel.centerDist sqrt shape other ≠ 0) :
    (0 ≤ (rand k : α) / (RAND_MAX : α) ∧ (rand k : α) / (RAND_MAX : α) ≤ 1) ∧
    ∃ shape' other' k',
      Parallel.resolvePair RAND_MAX rand sqrt shape other k = some (shape', other', k') ∧
      (other'.rotationSpeed = other.rotationSpeed ∧
        other'.r = other.r ∧ other'.g = other.g ∧ other'.b = other.b) ∧
      (0.1 ≤ (rand k : α) / (RAND_MAX : α) →
        shape'.rotationSpeed = shape.rotationSpeed ∧
        shape'.r = shape.r ∧ shape'.g = shape.g ∧ shape'.b = shape.b ∧ k' = k + 1) ∧
      (0.05 ≤ (rand k : α) / (RAND_MAX : α) → (rand k : α) / (RAND_MAX : α) < 0.1 →
        shape'.rotationSpeed = 70 * ((rand (k + 1) : α) / (RAND_MAX : α)) ∧
        shape'.r = shape.r ∧ shape'.g = shape.g ∧ shape'.b = shape.b ∧ k' = k + 2) ∧
      ((rand k : α) / (RAND_MAX : α) < 0.05 →
        shape'.rotationSpeed = 70 * ((rand (k + 1) : α) / (RAND_MAX : α)) ∧
        shape'.r = (rand (k + 2) : α) / (RAND_MAX : α) ∧
        shape'.g = (rand (k + 3) : α) / (RAND_MAX : α) ∧
        shape'.b = (rand (k + 4) : α) / (RAND_MAX : α) ∧ k' = k + 5) := by
  refine ⟨rand_unit RAND_MAX (rand k) hR (hrand k), ?_⟩
  unfold Parallel.centerDist at hlt hne
  simp only [Parallel.resolvePair, if_pos hlt, if_neg hne]
  refine ⟨_, _, _, rfl, ?_, ?_, ?_, ?_⟩
  · exact ⟨rfl, rfl, rfl, rfl⟩
  · intro hp
    have h1 : ¬ (rand k : α) / (RAND_MAX : α) < 0.1 := not_lt.2 hp
    have h2 : ¬ (rand k : α) / (RAND_MAX : α) < 0.05 := by
      intro h
      norm_num at h hp
      linarith
    rw [if_neg h1, if_neg h2]
    exact ⟨rfl, rfl, rfl, rfl, rfl⟩
  · intro hp hq
    rw [if_pos hq, if_neg (not_lt.2 hp)]
    exact ⟨rfl, rfl, rfl, rfl, rfl⟩
  · intro hp
    have h1 : (rand k : α) / (RAND_MAX : α) < 0.1 := by
      norm_num at hp ⊢
      linarith
    rw [if_pos h1, if_pos hp]
    exact ⟨rfl, rfl, rfl, rfl, rfl⟩

/-- Witness of C9: radii `0.1`, centres `0.15` apart, `RAND_MAX = 32767` and a stream that
always returns `2000`, so that `p` lies between `0.05` and `0.10`. -/
theorem resolvePair_cosmetic_witness :
    (0 ≤ ((2000 : ℕ) : ℝ) / ((32767 : ℕ) : ℝ) ∧
      ((2000 : ℕ) : ℝ) / ((32767 : ℕ) : ℝ) ≤ 1) ∧
    ∃ shape' other' k',
      Parallel.resolvePair 32767 (fun _ => 2000) Real.sqrt
        (⟨3, 0.1, 0, 0, 1, 0, 0, 0, 0, 0, 0, 0, 1, 1, 1⟩ : Parallel.Shape ℝ)
        ⟨4, 0.1, 0.15, 0, 1, 0, 0, 0, 0, 0, 0, 0, 1, 1, 1⟩ 0 = some (shape', other', k') ∧
      (other'.rotationSpeed = 0 ∧ other'.r = 1 ∧ other'.g = 1 ∧ other'.b = 1) ∧
      (0.1 ≤ ((2000 : ℕ) : ℝ) / ((32767 : ℕ) : ℝ) →
        shape'.rotationSpeed = 0 ∧ shape'.r = 1 ∧ shape'.g = 1 ∧ shape'.b = 1 ∧ k' = 0 + 1) ∧
      (0.05 ≤ ((2000 : ℕ) : ℝ) / ((32767 : ℕ) : ℝ) →
        ((2000 : ℕ) : ℝ) / ((32767 : ℕ) : ℝ) < 0.1 →
        shape'.rotationSpeed = 70 * (((2000 : ℕ) : ℝ) / ((32767 : ℕ) : ℝ)) ∧
        shape'.r = 1 ∧ shape'.g = 1 ∧ shape'.b = 1 ∧ k' = 0 + 2) ∧
      (((2000 : ℕ) : ℝ) / ((32767 : ℕ) : ℝ) < 0.05 →
        shape'.rotationSpeed = 70 * (((2000 : ℕ) : ℝ) / ((32767 : ℕ) : ℝ)) ∧
        shape'.r = ((2000 : ℕ) : ℝ) / ((32767 : ℕ) : ℝ) ∧
        shape'.g = ((2000 : ℕ) : ℝ) / ((32767 : ℕ) : ℝ) ∧
        shape'.b = ((2000 : ℕ) : ℝ) / ((32767 : ℕ) : ℝ) ∧ k' = 0 + 5) := by
  have hs : Real.sqrt (9 / 400) = 3 / 20 := by
    rw [Real.sqrt_eq_iff_mul_self_eq] <;> norm_num
  exact resolvePair_cosmetic 32767 (fun _ => 2000)
    Real.sqrt ⟨3, 0.1, 0, 0, 1, 0, 0, 0, 0, 0, 0, 0, 1, 1, 1⟩
    ⟨4, 0.1, 0.15, 0, 1, 0, 0, 0, 0, 0, 0, 0, 1, 1, 1⟩ 0 (by norm_num)
    (fun _ => by norm_num)
    (by norm_num [Parallel.centerDist, hs]) (by norm_num [Parallel.centerDist, hs])

/-! ## The extended update refines the basic one -/

/-- C11. The extended update refines the basic one: for every store, every shape in it, every
`dt`, every stream of `rand()` results and every stream position, `updateShape` of
`parallel.cpp` and `updateShape` of `main.cpp`, run on stores that agree on `sides`, `radius`,
position and velocity of every shape, either both divide by zero or both return a store, and
the two returned stores agree again on `sides`, `radius`, position and velocity of every
shape. -/
theorem updateShape_refines [FloorRing α] (RAND_MAX : ℕ) (rand : ℕ → ℕ) (sqrt : α → α)
    (pshapes : List (Parallel.Shape α)) (shapes : List (Shape α)) (i : ℕ) (dt : α) (k : ℕ)
    (_hi : i < shapes.length) (hagree : List.Forall₂ Agrees pshapes shapes) :
    (Parallel.updateShape RAND_MAX rand sqrt pshapes i dt k = none ↔
      updateShape sqrt shapes i dt = none) ∧
    (∀ pshapes' k', Parallel.updateShape RAND_MAX rand sqrt pshapes i dt k = some (pshapes', k') →
      ∃ shapes', updateShape sqrt shapes i dt = some shapes' ∧
        List.Forall₂ Agrees pshapes' shapes') ∧
    (∀ shapes', updateShape sqrt shapes i dt = some shapes' →
      ∃ pshapes' k', Parallel.updateShape RAND_MAX rand sqrt pshapes i dt k =
          some (pshapes', k') ∧
        List.Forall₂ Agrees pshapes' shapes') := by
  have h := updateShape_agrees RAND_MAX rand sqrt pshapes shapes i dt k hagree
  rcases hp : Parallel.updateShape RAND_MAX rand sqrt pshapes i dt k with _ | ⟨ps', k'⟩ <;>
    rcases hs : updateShape sqrt shapes i dt with _ | ss' <;>
    rw [hp, hs] at h <;> simp only [StoresAgree] at h
  · simp
  · refine ⟨by simp, ?_, ?_⟩
    · intro a b hab
      simp only [Option.some.injEq, Prod.mk.injEq] at hab
      obtain ⟨rfl, rfl⟩ := hab
      exact ⟨ss', rfl, h⟩
    · intro c hc
      simp only [Option.some.injEq] at hc
      subst hc
      exact ⟨ps', k', rfl, h⟩

/-- Witness of C11: two shapes of radius `0.1` at depth `1`, `0.15` apart, with the velocity
vectors `(0.1, 0, 0)` and `(-0.2, 0.05, 0)`, updated for the first one with `dt = 0.5`. In
`parallel.cpp` the first shape also rotates (from `45`, `0`, `0` degrees at speed `30`) and the
draw `p = 2000 / 32767` gives it a new rotation speed; both variants move the centres to
`x = 0` and `x = 0.2` and exchange the velocity vectors. -/
theorem updateShape_refines_witness :
    (Parallel.updateShape 32767 (fun _ => 2000) Real.sqrt
        [(⟨3, 0.1, 0, 0, 1, 0.1, 0, 0, 45, 0, 0, 30, 1, 1, 1⟩ : Parallel.Shape ℝ),
          ⟨4, 0.1, 0.15, 0, 1, -0.2, 0.05, 0, 0, 0, 0, 0, 0.5, 0.5, 0.5⟩] 0 0.5 0
      = some ([⟨3, 0.1, 0, 0, 1, -0.2, 0.05, 0, 60, 15, 15, 70 * (2000 / 32767), 1, 1, 1⟩,
          ⟨4, 0.1, 0.2, 0, 1, 0.1, 0, 0, 0, 0, 0, 0, 0.5, 0.5, 0.5⟩], 2) ∧
      updateShape Real.sqrt
        [(⟨3, 0.1, 0, 0, 1, 0.1, 0, 0, 0.2, 0.4, 0.6⟩ : Shape ℝ),
          ⟨4, 0.1, 0.15, 0, 1, -0.2, 0.05, 0, 0.3, 0.3, 0.3⟩] 0 0.5
      = some [⟨3, 0.1, 0, 0, 1, -0.2, 0.05, 0, 0.2, 0.4, 0.6⟩,
          ⟨4, 0.1, 0.2, 0, 1, 0.1, 0, 0, 0.3, 0.3, 0.3⟩]) ∧
    ((Parallel.updateShape 32767 (fun _ => 2000) Real.sqrt
        [(⟨3, 0.1, 0, 0, 1, 0.1, 0, 0, 45, 0, 0, 30, 1, 1, 1⟩ : Parallel.Shape ℝ),
          ⟨4, 0.1, 0.15, 0, 1, -0.2, 0.05, 0, 0, 0, 0, 0, 0.5, 0.5, 0.5⟩] 0 0.5 0 = none ↔
      updateShape Real.sqrt
        [(⟨3, 0.1, 0, 0, 1, 0.1, 0, 0, 0.2, 0.4, 0.6⟩ : Shape ℝ),
          ⟨4, 0.1, 0.15, 0, 1, -0.2, 0.05, 0, 0.3, 0.3, 0.3⟩] 0 0.5 = none) ∧
    (∀ pshapes' k', Parallel.updateShape 32767 (fun _ => 2000) Real.sqrt
        [(⟨3, 0.1, 0, 0, 1, 0.1, 0, 0, 45, 0, 0, 30, 1, 1, 1⟩ : Parallel.Shape ℝ),
          ⟨4, 0.1, 0.15, 0, 1, -0.2, 0.05, 0, 0, 0, 0, 0, 0.5, 0.5, 0.5⟩] 0 0.5 0 =
          some (pshapes', k') →
      ∃ shapes', updateShape Real.sqrt
          [(⟨3, 0.1, 0, 0, 1, 0.1, 0, 0, 0.2, 0.4, 0.6⟩ : Shape ℝ),
            ⟨4, 0.1, 0.15, 0, 1, -0.2, 0.05, 0, 0.3, 0.3, 0.3⟩] 0 0.5 = some shapes' ∧
        List.Forall₂ Agrees pshapes' shapes') ∧
    (∀ shapes', updateShape Real.sqrt
        [(⟨3, 0.1, 0, 0, 1, 0.1, 0, 0, 0.2, 0.4, 0.6⟩ : Shape ℝ),
          ⟨4, 0.1, 0.15, 0, 1, -0.2, 0.05, 0, 0.3, 0.3, 0.3⟩] 0 0.5 = some shapes' →
      ∃ pshapes' k', Parallel.updateShape 32767 (fun _ => 2000) Real.sqrt
          [(⟨3, 0.1, 0, 0, 1, 0.1, 0, 0, 45, 0, 0, 30, 1, 1, 1⟩ : Parallel.Shape ℝ),
            ⟨4, 0.1, 0.15, 0, 1, -0.2, 0.05, 0, 0, 0, 0, 0, 0.5, 0.5, 0.5⟩] 0 0.5 0 =
            some (pshapes', k') ∧
        List.Forall₂ Agrees pshapes' shapes')) := by
  have hs : Real.sqrt (1 / 100) = 1 / 10 := by
    rw [Real.sqrt_eq_iff_mul_self_eq] <;> norm_num
  have f1 : ⌊(2 / 3 : ℝ)⌋ = 0 := by
    rw [Int.floor_eq_iff]; norm_num
  have f2 : ⌊(1 / 6 : ℝ)⌋ = 0 := by
    rw [Int.floor_eq_iff]; norm_num
  refine ⟨⟨?_, ?_⟩, ?_⟩
  · norm_num [Parallel.updateShape, Parallel.boundaryStep, Parallel.integrate,
      Parallel.advance, Parallel.nudge, fmod, Parallel.clampLateral, Parallel.clampDepth,
      NEAR_PLANE, FAR_PLANE, Parallel.collisionScan, List.range_succ, Parallel.scanFrom,
      Parallel.collide, Parallel.resolvePair, Parallel.Shape.changeColor, hs, f1, f2]
  · norm_num [updateShape, boundaryStep, integrate, clampLateral, clampDepth, NEAR_PLANE,
      FAR_PLANE, collisionScan, List.range_succ, scanFrom, collide, resolvePair, hs]
  · exact updateShape_refines 32767 (fun _ => 2000) Real.sqrt
      [⟨3, 0.1, 0, 0, 1, 0.1, 0, 0, 45, 0, 0, 30, 1, 1, 1⟩,
        ⟨4, 0.1, 0.15, 0, 1, -0.2, 0.05, 0, 0, 0, 0, 0, 0.5, 0.5, 0.5⟩]
      [⟨3, 0.1, 0, 0, 1, 0.1, 0, 0, 0.2, 0.4, 0.6⟩,
        ⟨4, 0.1, 0.15, 0, 1, -0.2, 0.05, 0, 0.3, 0.3, 0.3⟩] 0 0.5 0 (by norm_num)
      (List.Forall₂.cons ⟨rfl, rfl, rfl, rfl, rfl, rfl, rfl, rfl⟩
        (List.Forall₂.cons ⟨rfl, rfl, rfl, rfl, rfl, rfl, rfl, rfl⟩ List.Forall₂.nil))

end Screensaver
